import Mathlib

/-!
Verification of the governance core of the taggr repository
(`src/backend/env/proposals.rs` plus its entry points in `src/backend/lib.rs`).

The development is a shallow embedding: every operation of the governance
core is translated into an executable Lean definition.  Machine integers
are modelled as `Nat` with explicit wrap-around (`% 2^64`) exactly where
the Rust `u64` arithmetic can overflow or wrap.  The `f32` / `f64`
arithmetic of the reference (reward averaging, voting-power decay) is
modelled bit-exactly by an executable IEEE-754 binary floating point model
over scaled natural numbers (`Fl` below), restricted to the nonnegative
fragment, which is the only fragment the code exercises (all float inputs
in the source are `u64` casts and sums, products and quotients thereof).

External collaborators that live outside the two source files
(principal parsing, the post subsystem, the ledger, the user record
methods, `CONFIG`) are modelled either as parameters (`Config`,
`Collabs`) or as definitions whose doc comment starts with
"Modelled from the spec:".
-/

set_option maxRecDepth 100000

namespace Taggr

/-! ## IEEE-754 binary floating point model (nonnegative fragment) -/

/-- Step of a fixed-depth binary search for the bit length: `v` must be
`2^k`; if `v ≤ p.2` the accumulator gains `k` and the argument is divided. -/
def blStep (v k : ℕ) (p : ℕ × ℕ) : ℕ × ℕ :=
  if v ≤ p.2 then (p.1 + k, p.2 / v) else p

/-- Power of two with exponent kept small at each literal. -/
def p256 : ℕ := 2 ^ 256

/-- Bit length of a natural number (`bitlen 0 = 0`, `bitlen 1 = 1`,
`bitlen 2 = 2`, ...), total and kernel-computable for inputs below
`2 ^ 4096`, far above anything the embedding produces. -/
def bitlen (n : ℕ) : ℕ :=
  if n = 0 then 0 else
  let p := (0, n)
  let p := blStep (p256 ^ 8) 2048 p
  let p := blStep (p256 ^ 4) 1024 p
  let p := blStep (p256 ^ 2) 512 p
  let p := blStep p256 256 p
  let p := blStep (2 ^ 128) 128 p
  let p := blStep (2 ^ 64) 64 p
  let p := blStep (2 ^ 32) 32 p
  let p := blStep (2 ^ 16) 16 p
  let p := blStep (2 ^ 8) 8 p
  let p := blStep (2 ^ 4) 4 p
  let p := blStep (2 ^ 2) 2 p
  let p := blStep 2 1 p
  p.1 + 1

/-- Floor of the base-2 logarithm of the positive rational `a / b`. -/
def floorLog2Frac (a b : ℕ) : ℤ :=
  let la := bitlen a - 1
  let lb := bitlen b - 1
  if b * 2 ^ la ≤ a * 2 ^ lb then (la : ℤ) - lb else (la : ℤ) - lb - 1

/-- Nonnegative IEEE-754 float value: not-a-number, positive infinity, or a
finite value `n * 2 ^ s` (the representation is not required to be
normalised; rounding produces the canonical witness). -/
inductive Fl
  | nan
  | inf
  | fin (n : ℕ) (s : ℤ)
deriving DecidableEq, Repr

/-- Format of a binary IEEE-754 floating point type: precision in bits,
minimum scale (subnormal exponent), and the base-2 logarithm of the
overflow threshold. -/
structure FlFmt where
  prec : ℕ
  sMin : ℤ
  lim : ℤ
deriving DecidableEq, Repr

/-- IEEE-754 binary32 (Rust `f32`). -/
def fmt32 : FlFmt := ⟨24, -149, 128⟩

/-- IEEE-754 binary64 (Rust `f64`). -/
def fmt64 : FlFmt := ⟨53, -1074, 1024⟩

/-- Round the nonnegative rational `(a / b) * 2 ^ t` to format `F` with
round-to-nearest, ties to even, overflowing to infinity: the IEEE-754
default rounding used by all Rust float arithmetic and casts. -/
def roundQ (F : FlFmt) (a b : ℕ) (t : ℤ) : Fl :=
  if a = 0 then .fin 0 0
  else
    let e : ℤ := floorLog2Frac a b + t
    let s : ℤ := max (e - F.prec + 1) F.sMin
    let d : ℤ := t - s
    let A := a * 2 ^ d.toNat
    let B := b * 2 ^ (-d).toNat
    let n := A / B
    let r := A % B
    let n' := if 2 * r < B then n
              else if B < 2 * r then n + 1
              else if n % 2 = 0 then n else n + 1
    if n' = 0 then .fin 0 0
    else if s ≥ F.lim ∨ 2 ^ (F.lim - s).toNat ≤ n' then .inf
    else .fin n' s

/-- Float addition (nonnegative fragment). -/
def Fl.add (F : FlFmt) : Fl → Fl → Fl
  | .nan, _ => .nan
  | _, .nan => .nan
  | .inf, _ => .inf
  | _, .inf => .inf
  | .fin n1 s1, .fin n2 s2 =>
    let sm := min s1 s2
    roundQ F (n1 * 2 ^ (s1 - sm).toNat + n2 * 2 ^ (s2 - sm).toNat) 1 sm

/-- Float multiplication (nonnegative fragment); `inf * 0 = nan`. -/
def Fl.mul (F : FlFmt) : Fl → Fl → Fl
  | .nan, _ => .nan
  | _, .nan => .nan
  | .inf, .fin n _ => if n = 0 then .nan else .inf
  | .fin n _, .inf => if n = 0 then .nan else .inf
  | .inf, .inf => .inf
  | .fin n1 s1, .fin n2 s2 => roundQ F (n1 * n2) 1 (s1 + s2)

/-- Float division (nonnegative fragment); `0 / 0 = nan`, `x / 0 = inf`. -/
def Fl.div (F : FlFmt) : Fl → Fl → Fl
  | .nan, _ => .nan
  | _, .nan => .nan
  | .inf, .inf => .nan
  | .inf, .fin _ _ => .inf
  | .fin _ _, .inf => .fin 0 0
  | .fin n1 s1, .fin n2 s2 =>
    if n2 = 0 then (if n1 = 0 then .nan else .inf)
    else roundQ F n1 n2 (s1 - s2)

/-- Conversion of an unsigned integer to a float (Rust `as f32` / `as f64`),
which rounds to nearest, ties to even. -/
def natToFl (F : FlFmt) (m : ℕ) : Fl := roundQ F m 1 0

/-- Rust saturating float-to-`u64` cast (`as u64`): truncation toward zero,
NaN to 0, clamped to the `u64` range. -/
def Fl.castU64 : Fl → ℕ
  | .nan => 0
  | .inf => 2 ^ 64 - 1
  | .fin n s => min (if 0 ≤ s then n * 2 ^ s.toNat else n / 2 ^ (-s).toNat) (2 ^ 64 - 1)

/-! ## Machine-integer helpers -/

/-- Wrapping `u64` addition. -/
def add64 (a b : ℕ) : ℕ := (a + b) % 2 ^ 64

/-- Wrapping `u64` multiplication. -/
def mul64 (a b : ℕ) : ℕ := (a * b) % 2 ^ 64

/-- Wrapping `u64` subtraction `a - b` for `a < 2^64` (release-mode Rust
semantics of an underflowing `u64` subtraction). -/
def wsub64 (a b : ℕ) : ℕ := (a + 2 ^ 64 - b % 2 ^ 64) % 2 ^ 64

/-- Test mirroring the Rust comparison `from_text(receiver) == Ok(principal)`. -/
def parsesTo (x : Except String ℕ) (pr : ℕ) : Bool :=
  match x with
  | .ok q => q == pr
  | .error _ => false

/-- Model of Rust `str::parse::<u64>` restricted to plain decimal digit
strings (sign prefixes are elided; no claim depends on them). Error texts
follow the Rust ParseIntError displays. -/
def parseU64 (s : String) : Except String ℕ :=
  if s = "" then .error "cannot parse integer from empty string"
  else if s.toList.all Char.isDigit then
    let n := s.toList.foldl (fun acc ch => acc * 10 + (ch.toNat - 48)) 0
    if n < 2 ^ 64 then .ok n else .error "number too large to fit in target type"
  else .error "invalid digit found in string"

/-! ## Data model (from `proposals.rs`) -/

/-- User identifier (`UserId`, a `u64` in the source). -/
abbrev UserId := ℕ

/-- Token amount in base units (`Token`, a `u64` in the source). -/
abbrev Token := ℕ

/-- Post identifier from the post collaborator. -/
abbrev PostId := ℕ

/-- Host principal, an opaque caller identity; only equality and the
partial textual parse are observable to the governance core. -/
abbrev Principal := ℕ

/-- Proposal status (source enum `Status`). -/
inductive Status
  | Open
  | Rejected
  | Executed
  | Cancelled
deriving DecidableEq, Repr

/-- Release payload body (source struct `Release`); `binary` is a byte
sequence. -/
structure Release where
  commit : String
  hash : String
  binary : List ℕ
deriving DecidableEq, Repr

/-- Reward payload body (source struct `Reward`). -/
structure Reward where
  receiver : String
  votes : List (Token × Token)
  minted : Token
deriving DecidableEq, Repr

/-- Proposal payload (source enum `Payload`). -/
inductive Payload
  | Noop
  | Release (release : Release)
  | Fund (receiver : String) (tokens : Token)
  | Reward (reward : Reward)
deriving DecidableEq, Repr

/-- Discriminant test mirroring Rust `matches!(p, Payload::Release(_))`. -/
def Payload.isRelease : Payload → Bool
  | .Release _ => true
  | _ => false

/-- Proposal record (source struct `Proposal`). -/
structure Proposal where
  id : ℕ
  proposer : UserId
  timestamp : ℕ
  post_id : PostId
  status : Status
  payload : Payload
  bulletins : List (UserId × Bool × Token)
  voting_power : Token
deriving DecidableEq, Repr

/-- Modelled from the spec: the user record collaborator (spec section 6).
The source file reads `trusted()`, `stalwart`, `id`, `name`, `cycles()`,
and mutates `stalwart`, `active_weeks`, karma (via `change_karma`), cycles
(via `State::charge`) and the notification inbox (via `notify`). -/
structure User where
  id : UserId
  principal : Principal
  name : String
  stalwart : Bool
  trusted : Bool
  active_weeks : ℕ
  karma : ℤ
  cycles : ℕ
  inbox : List String
deriving DecidableEq, Repr

/-- Logger collaborator: `info` and `error` entries, in order. -/
structure Logger where
  infos : List String
  errors : List String
deriving DecidableEq, Repr

/-- Governance-relevant state: the proposal list owned by the core plus the
collaborator-owned user records, ledger balances, logger and an event
trace for the notification broadcasts. -/
structure State where
  proposals : List Proposal
  users : List User
  balances : List (Principal × Token)
  logger : Logger
  events : List String
deriving DecidableEq, Repr

/-- Static configuration (source `CONFIG`, defined outside `src/`); the
development is parametric in it. The field name
`proposal_controversy_threashold` keeps the spelling of the source. -/
structure Config where
  token_decimals : ℕ
  token_symbol : String
  max_funding_amount : ℕ
  proposal_approval_threshold : ℕ
  proposal_controversy_threashold : ℕ
  proposal_rejection_penalty : ℕ
  voting_reward : ℕ
deriving DecidableEq, Repr

/-- External collaborator operations used by the core but implemented
outside the two source files: candid principal parsing, the active voting
power and minting ratio of the platform state, post creation, and the
SHA-256 hex digest. The development is parametric in them. -/
structure Collabs where
  parsePrincipal : String → Except String Principal
  activeVotingPower : State → ℕ → ℕ
  mintingRatio : State → ℕ
  postCreate : State → String → Principal → ℕ → ℕ → Except String (PostId × State)
  sha256hex : List ℕ → String

/-- Platform time unit scale: one hour in time units (nanoseconds), the
`HOUR` constant of the environment module. Claims only depend on the
product `HOUR * 24`. -/
def HOUR : ℕ := 3600000000000

/-! ## State helpers (collaborator methods used by `proposals.rs`) -/

/-- Lookup of the user record behind a principal (`principal_to_user`). -/
def principalToUser (s : State) (pr : Principal) : Option User :=
  s.users.find? (fun u => u.principal == pr)

/-- Lookup of a user record by id (`state.users.get`). -/
def userById (s : State) (uid : UserId) : Option User :=
  s.users.find? (fun u => u.id == uid)

/-- Replacement of the user record with the id of `u` by `u`. -/
def updateUser (s : State) (u : User) : State :=
  { s with users := s.users.map (fun v => if v.id == u.id then u else v) }

/-- Ledger balance of a principal (`state.balances.get(&account(p))`);
the opaque account key is injective in the principal, so the model keys
directly by principal. -/
def balanceOf (s : State) (pr : Principal) : Option Token :=
  (s.balances.find? (fun e => e.1 == pr)).map (fun e => e.2)

/-- Modelled from the spec: the ledger `mint(account, amount)` collaborator
credits the amount to the account, creating the balance entry if absent. -/
def mintBal (s : State) (pr : Principal) (tokens : Token) : State :=
  { s with balances :=
      if s.balances.any (fun e => e.1 == pr)
      then s.balances.map (fun e => if e.1 == pr then (e.1, e.2 + tokens) else e)
      else s.balances ++ [(pr, tokens)] }

/-- Modelled from the spec: `State::charge` deducts cycles from the user,
failing with the stable error text when the user is gone (spec section
4.5); the call site clamps the amount to the balance. -/
def State.charge (s : State) (uid : UserId) (amount : ℕ) : Except String State :=
  match userById s uid with
  | none => .error "user not found"
  | some u => .ok (updateUser s { u with cycles := u.cycles - amount })

/-- Modelled from the spec: `spend_to_user_karma` awards the voter the
voting reward (spec section 4.3); modelled as a karma credit. -/
def spendToUserKarma (s : State) (uid : UserId) (amount : ℕ) : State :=
  match userById s uid with
  | none => s
  | some u => updateUser s { u with karma := u.karma + amount }

/-- Logger `info` entry. -/
def logInfo (s : State) (msg : String) : State :=
  { s with logger := { s.logger with infos := s.logger.infos ++ [msg] } }

/-- Logger `error` entry. -/
def logError (s : State) (msg : String) : State :=
  { s with logger := { s.logger with errors := s.logger.errors ++ [msg] } }

/-- Modelled from the spec: `notify_with_predicate` broadcasts to active
token holders; the delivery detail is abstracted into an event-trace
entry. -/
def notifyEvent (s : State) (msg : String) : State :=
  { s with events := s.events ++ ["notify: " ++ msg] }

/-- Modelled from the spec: `denotify_users` retracts notifications;
abstracted into an event-trace entry. -/
def denotifyEvent (s : State) : State :=
  { s with events := s.events ++ ["denotify"] }

/-- Modelled from the spec: the user `notify` collaborator appends to the
inbox of the user. -/
def userNotify (s : State) (uid : UserId) (msg : String) : State :=
  match userById s uid with
  | none => s
  | some u => updateUser s { u with inbox := u.inbox ++ [msg] }

/-! ## Operations (translated from `proposals.rs`)

Log and notification messages keep the literal parts of the source format
strings; interpolated numbers are elided because no claim inspects them,
and apostrophes of the source texts are dropped. -/

/-- Payload validation (source `Payload::validate`); the Rust method
mutates the payload in place (to fill in `Release.hash`), modelled by
returning the updated payload. -/
def Payload.validate (c : Collabs) (cfg : Config) (payload : Payload)
    (ratio : ℕ) : Except String Payload :=
  match payload with
  | .Release release =>
    if release.commit = "" then .error "commit is not specified"
    else if release.binary = [] then .error "binary is missing"
    else .ok (.Release { release with hash := c.sha256hex release.binary })
  | .Fund controller tokens =>
    (match c.parsePrincipal controller with
     | .error err => .error err
     | .ok _ =>
       let base := 10 ^ cfg.token_decimals
       let max_funding_amount := cfg.max_funding_amount / ratio / base
       if tokens / base > max_funding_amount
       then .error "funding amount is higher than the configured maximum of tokens"
       else .ok payload)
  | _ => .ok payload

/-- Ballot engine (source `Proposal::vote`): reads the state, mutates only
the proposal (returned on success). -/
def Proposal.vote (cfg : Config) (c : Collabs) (p : Proposal) (s : State)
    (principal : Principal) (approve : Bool) (data : String) :
    Except String Proposal :=
  match principalToUser s principal with
  | none => .error "no user found"
  | some user =>
    if !user.trusted then .error "only trusted users can vote"
    else if p.bulletins.any (fun b => b.1 == user.id) then .error "double vote"
    else
      match balanceOf s principal with
      | none => .error "only token holders can vote"
      | some balance =>
        match p.payload with
        | .Release release =>
          if approve && release.hash != data then .error "wrong hash"
          else .ok { p with bulletins := p.bulletins ++ [(user.id, approve, balance)] }
        | .Fund receiver _ =>
          if parsesTo (c.parsePrincipal receiver) principal
          then .error "funding receivers can not vote"
          else .ok { p with bulletins := p.bulletins ++ [(user.id, approve, balance)] }
        | .Reward reward =>
          if parsesTo (c.parsePrincipal reward.receiver) principal
          then .error "reward receivers can not vote"
          else
            let ratio := c.mintingRatio s
            let base := 10 ^ cfg.token_decimals
            let max_funding_amount := cfg.max_funding_amount / ratio / base
            (match (if approve then parseU64 data else .ok 0) with
             | .error err => .error ("failed to parse the token amount: " ++ err)
             | .ok tokens =>
               if tokens > max_funding_amount
               then .error "reward amount is higher than the configured maximum of tokens"
               else .ok { p with
                 payload := .Reward { reward with votes := reward.votes ++ [(balance, tokens * base)] },
                 bulletins := p.bulletins ++ [(user.id, approve, balance)] })
        | .Noop => .ok { p with bulletins := p.bulletins ++ [(user.id, approve, balance)] }

/-- Time-decayed electorate of the resolver (the first block of
`Proposal::execute`): `delta` is `time.saturating_sub(timestamp)`; the
inner `100 - days` is a wrapping `u64` subtraction and the whole product
is IEEE-754 `f64` arithmetic, exactly as in the source. -/
def computedVotingPower (supply : ℕ) (delta : ℕ) : ℕ :=
  let days := delta / (HOUR * 24)
  let fmax := max (wsub64 100 days) 1
  (Fl.mul fmt64 (natToFl fmt64 supply)
    (Fl.div fmt64 (natToFl fmt64 fmax) (natToFl fmt64 100))).castU64

/-- Tally fold of `Proposal::execute`: sums of ballot balances by side in
wrapping `u64` arithmetic, result `(approvals, rejects)`. -/
def tally (bulletins : List (UserId × Bool × Token)) : Token × Token :=
  bulletins.foldl
    (fun ar b => if b.2.1 then (add64 ar.1 b.2.2, ar.2) else (ar.1, add64 ar.2 b.2.2))
    (0, 0)

/-- Weighted reward mint of the Reward branch of `Proposal::execute`: the
`u64` total of the vote balances, then an `f32` fold of
`acc + vp / total * reward`, cast back to `u64`. -/
def rewardMintAmount (votes : List (Token × Token)) : Token :=
  let total := votes.foldl (fun t v => add64 t v.1) 0
  (votes.foldl
    (fun acc v =>
      Fl.add fmt32 acc
        (Fl.mul fmt32
          (Fl.div fmt32 (natToFl fmt32 v.1) (natToFl fmt32 total))
          (natToFl fmt32 v.2)))
    (.fin 0 0)).castU64

/-- Token minting helper (source `mint_tokens`): parse the receiver, mint,
log, and notify the receiving user if one exists. -/
def mint_tokens (cfg : Config) (c : Collabs) (s : State) (receiver : String)
    (tokens : Token) : Except String State :=
  match c.parsePrincipal receiver with
  | .error e => .error e
  | .ok rcv =>
    let s := mintBal s rcv tokens
    let s := logInfo s ("$" ++ cfg.token_symbol ++ " tokens were minted via proposal execution.")
    match principalToUser s rcv with
    | some user => .ok (userNotify s user.id ("$" ++ cfg.token_symbol ++ " tokens were minted for you via proposal execution."))
    | none => .ok s

/-- Tally and resolver (source `Proposal::execute`): recomputes the
decayed electorate, classifies the tally, applies the rejection penalty or
the payload effects, and returns `(result, proposal, state)`. -/
def Proposal.execute (cfg : Config) (c : Collabs) (p : Proposal) (s : State)
    (time : ℕ) : Except String Unit × Proposal × State :=
  let supply := c.activeVotingPower s time
  let voting_power := computedVotingPower supply (time - p.timestamp)
  let s := if 0 < p.voting_power ∧ voting_power < p.voting_power
           then logInfo s "Decreasing the total voting power on latest proposal."
           else s
  let p := { p with voting_power := voting_power }
  let ar := tally p.bulletins
  let approvals := ar.1
  let rejects := ar.2
  if mul64 rejects 100 ≥ mul64 voting_power (100 - cfg.proposal_approval_threshold) then
    let p := { p with status := Status.Rejected }
    if mul64 approvals 100 < mul64 cfg.proposal_controversy_threashold rejects then
      match userById s p.proposer with
      | none => (.error "user not found", p, s)
      | some proposer =>
        let proposer := { proposer with
          stalwart := false,
          active_weeks := 0,
          karma := proposer.karma - (cfg.proposal_rejection_penalty : ℤ) }
        let s := updateUser s proposer
        let cycle_balance := proposer.cycles
        (match s.charge p.proposer (min cycle_balance cfg.proposal_rejection_penalty) with
         | .error e => (.error e, p, s)
         | .ok s => (.ok (), p, s))
    else (.ok (), p, s)
  else if mul64 approvals 100 ≥ mul64 voting_power cfg.proposal_approval_threshold then
    match p.payload with
    | .Fund receiver tokens =>
      (match mint_tokens cfg c s receiver tokens with
       | .error e => (.error e, p, s)
       | .ok s => (.ok (), { p with status := Status.Executed }, s))
    | .Reward reward =>
      let tokens_to_mint := rewardMintAmount reward.votes
      (match mint_tokens cfg c s reward.receiver tokens_to_mint with
       | .error e => (.error e, p, s)
       | .ok s =>
         (.ok (), { p with
            payload := Payload.Reward { reward with votes := [], minted := tokens_to_mint },
            status := Status.Executed }, s))
    | _ => (.ok (), { p with status := Status.Executed }, s)
  else (.ok (), p, s)

/-- Supersession map of `propose`: mark every Open Release proposal
Cancelled (the constant conjunct on the incoming payload is hoisted to the
call site). -/
def cancelOpenReleases (l : List Proposal) : List Proposal :=
  l.map (fun p => if p.status = Status.Open ∧ p.payload.isRelease
                  then { p with status := Status.Cancelled } else p)

/-- Lifecycle entry point `propose` (source `propose`): admission checks,
release supersession, companion post creation, append, broadcast, log. -/
def propose (cfg : Config) (c : Collabs) (s : State) (caller : Principal)
    (description : String) (payload : Payload) (time : ℕ) :
    Except String ℕ × State :=
  match principalToUser s caller with
  | none => (.error "user not found", s)
  | some user =>
    if !user.stalwart then (.error "only stalwarts can create proposals", s)
    else if description = "" then (.error "description is empty", s)
    else
      match payload.validate c cfg (c.mintingRatio s) with
      | .error e => (.error e, s)
      | .ok payload =>
        let proposer := user.id
        let proposer_name := user.name
        let s := { s with proposals :=
          if payload.isRelease then cancelOpenReleases s.proposals else s.proposals }
        let id := s.proposals.length
        match c.postCreate s description caller time id with
        | .error e => (.error e, s)
        | .ok (post_id, s) =>
          let s := { s with proposals := s.proposals ++
            [{ id := id, proposer := proposer, timestamp := time, post_id := post_id,
               status := Status.Open, payload := payload, bulletins := [],
               voting_power := 0 }] }
          let s := notifyEvent s ("@" ++ proposer_name ++ " submitted a new proposal")
          let s := logInfo s ("@" ++ proposer_name ++ " submitted a new proposal.")
          (.ok id, s)

/-- Resolver entry point (source `execute_proposal`): refuses non-Open
proposals, runs `Proposal::execute`, logs failures, and on a status
transition retracts notifications and logs the voting-reward spend. -/
def execute_proposal (cfg : Config) (c : Collabs) (s : State)
    (proposal_id : ℕ) (time : ℕ) : Except String Unit × State :=
  match s.proposals.get? proposal_id with
  | none => (.error "no proposals founds", s)
  | some proposal =>
    if proposal.status ≠ Status.Open then (.error "last proposal is not open", s)
    else
      let previous_state := proposal.status
      let r := proposal.execute cfg c s time
      let s' := r.2.2
      let s' := match r.1 with
                | .error err => logError s' ("Proposal execution failed: " ++ err)
                | .ok _ => s'
      let s' := if previous_state ≠ r.2.1.status
                then logInfo (denotifyEvent s') "Spent cycles on proposal voting rewards."
                else s'
      let s' := { s' with proposals := s.proposals.set proposal_id r.2.1 }
      (r.1, s')

/-- Voting entry point (source `vote_on_proposal`): guard, ballot engine,
voter reward, then an immediate resolve. -/
def vote_on_proposal (cfg : Config) (c : Collabs) (s : State) (time : ℕ)
    (caller : Principal) (proposal_id : ℕ) (approved : Bool) (data : String) :
    Except String Unit × State :=
  match s.proposals.get? proposal_id with
  | none => (.error "no proposals founds", s)
  | some proposal =>
    if proposal.status ≠ Status.Open then (.error "last proposal is not open", s)
    else
      match proposal.vote cfg c s caller approved data with
      | .error err => (.error err, s)
      | .ok proposal' =>
        let s' := match principalToUser s caller with
                  | some user => spendToUserKarma s user.id cfg.voting_reward
                  | none => s
        let s' := { s' with proposals := s.proposals.set proposal_id proposal' }
        execute_proposal cfg c s' proposal_id time

/-- Cancellation entry point (source `cancel_proposal`): the two `expect`
calls of the source are unrecoverable traps, modelled as `none`; a trap
rolls the message back, so no state accompanies it. -/
def cancel_proposal (s : State) (caller : Principal) (proposal_id : ℕ) :
    Option State :=
  match s.proposals.get? proposal_id with
  | none => none
  | some proposal =>
    match principalToUser s caller with
    | none => none
    | some user =>
      if proposal.status = Status.Open ∧ proposal.proposer = user.id
      then
        let q := { proposal with status := Status.Cancelled }
        some { s with proposals := s.proposals.set proposal_id q }
      else some s

/-! ## Transition system -/

/-- Initial state: the `Default::default()` platform state. -/
def initState : State :=
  { proposals := [], users := [], balances := [], logger := ⟨[], []⟩, events := [] }

/-- One observable transition of the governance state: an entry-point call
with arbitrary arguments, or an external (non-governance) state change
that leaves the proposal list alone. -/
inductive Step (cfg : Config) (c : Collabs) : State → State → Prop
  | propose (s : State) (caller : Principal) (description : String)
      (payload : Payload) (time : ℕ) :
      Step cfg c s (Taggr.propose cfg c s caller description payload time).2
  | vote (s : State) (time : ℕ) (caller : Principal) (pid : ℕ)
      (approved : Bool) (data : String) :
      Step cfg c s (vote_on_proposal cfg c s time caller pid approved data).2
  | cancel (s s' : State) (caller : Principal) (pid : ℕ) :
      cancel_proposal s caller pid = some s' → Step cfg c s s'
  | resolve (s : State) (pid : ℕ) (time : ℕ) :
      Step cfg c s (execute_proposal cfg c s pid time).2
  | external (s s' : State) : s'.proposals = s.proposals → Step cfg c s s'

/-- Reachability of a governance state from the initial state. -/
def Reachable (cfg : Config) (c : Collabs) (s : State) : Prop :=
  Relation.ReflTransGen (Step cfg c) initState s

/-- Contract of the post collaborator: creating a post never touches the
proposal list (spec section 6). -/
def Collabs.preservesProposals (c : Collabs) : Prop :=
  ∀ s d pr t i pid s', c.postCreate s d pr t i = .ok (pid, s') →
    s'.proposals = s.proposals

/-! ## Derived observations used in claim statements -/

/-- Whether an `Except` result is an error. -/
def isError {α : Type} : Except String α → Bool
  | .error _ => true
  | .ok _ => false

/-- Plain (unbounded) sum of approving ballot balances. -/
def approvalsSum (l : List (UserId × Bool × Token)) : ℕ :=
  ((l.filter (fun b => b.2.1)).map (fun b => b.2.2)).sum

/-- Plain (unbounded) sum of rejecting ballot balances. -/
def rejectsSum (l : List (UserId × Bool × Token)) : ℕ :=
  ((l.filter (fun b => !b.2.1)).map (fun b => b.2.2)).sum

/-- Plain sum of all ballot balances. -/
def balancesSum (l : List (UserId × Bool × Token)) : ℕ :=
  (l.map (fun b => b.2.2)).sum

/-- Definition following the words of the spec (claim C2), for refinement
comparison: the voting power as the integer formula
`floor(active_voting_power * max(1, 100 - days_open) / 100)`. -/
def specVotingPower (active_voting_power : ℕ) (now timestamp : ℕ) : ℕ :=
  active_voting_power * max 1 (100 - (now - timestamp) / (HOUR * 24)) / 100

/-- Open Release proposal test (the supersession invariant counts these). -/
def isOpenRelease (p : Proposal) : Bool :=
  p.status == Status.Open && p.payload.isRelease

/-- Number of Open Release proposals in a state. -/
def openReleaseCount (s : State) : ℕ :=
  s.proposals.countP isOpenRelease

/-- Reward proposal whose receiver text does not parse as a principal. -/
def badReward (c : Collabs) (p : Proposal) : Bool :=
  match p.payload with
  | .Reward r => isError (c.parsePrincipal r.receiver)
  | _ => false

/-- Executed proposal whose Reward receiver text does not parse as a
principal (the execution invariant of claim C10 counts these). -/
def badExecuted (c : Collabs) (p : Proposal) : Bool :=
  (p.status == Status.Executed) && badReward c p

/-! ## Concrete instances for witnesses and counterexamples -/

/-- Concrete configuration with the thresholds of the spec examples
(T = 66, C = 200) and two token decimals, matching the reference suite. -/
def cfg66 : Config :=
  { token_decimals := 2, token_symbol := "TAGGR", max_funding_amount := 2000000,
    proposal_approval_threshold := 66, proposal_controversy_threashold := 200,
    proposal_rejection_penalty := 100, voting_reward := 5 }

/-- Concrete principal parser for witnesses: four named principals. -/
def parseP (t : String) : Except String Principal :=
  if t = "alice" then .ok 1 else if t = "bob" then .ok 2
  else if t = "carol" then .ok 3 else if t = "dora" then .ok 4
  else .error "invalid principal text"

/-- Concrete collaborators: active voting power is the ledger total, the
minting ratio is 1, post creation succeeds with post id 0 and no state
change. -/
def collabs0 : Collabs :=
  { parsePrincipal := parseP,
    activeVotingPower := fun s _ => (s.balances.map (fun e => e.2)).sum,
    mintingRatio := fun _ => 1,
    postCreate := fun s _ _ _ _ => .ok (0, s),
    sha256hex := fun _ => "digest" }

/-- Collaborators whose post creation always fails. -/
def collabsFail : Collabs :=
  { collabs0 with postCreate := fun _ _ _ _ _ => .error "post creation failed" }

/-- Collaborators reporting an electorate of `2 ^ 53 + 1` base units. -/
def collabsBig : Collabs :=
  { collabs0 with activeVotingPower := fun _ _ => 2 ^ 53 + 1 }

/-- Collaborators reporting an electorate of 100 base units. -/
def collabsHundred : Collabs :=
  { collabs0 with activeVotingPower := fun _ _ => 100 }

/-- Trusted user record for witnesses. -/
def mkUser (uid pr : ℕ) (name : String) (stal : Bool) (cyc : ℕ) : User :=
  { id := uid, principal := pr, name := name, stalwart := stal, trusted := true,
    active_weeks := 1, karma := 1000, cycles := cyc, inbox := [] }

/-- Open Reward proposal aimed at the principal text `t`, carrying the
given votes and bulletins. -/
def rewardProposal (t : String) (votes : List (Token × Token))
    (bulletins : List (UserId × Bool × Token)) : Proposal :=
  { id := 0, proposer := 1, timestamp := 0, post_id := 0, status := Status.Open,
    payload := Payload.Reward { receiver := t, votes := votes, minted := 0 },
    bulletins := bulletins, voting_power := 0 }

/-- Scenario state with three trusted token holders (balances 20000, 40000,
80000) and a single Open proposal. -/
def threeHolders (p : Proposal) : State :=
  { proposals := [p],
    users := [mkUser 1 1 "u1" true 1000, mkUser 2 2 "u2" true 1000,
              mkUser 3 3 "u3" true 1000],
    balances := [(1, 20000), (2, 40000), (3, 80000)],
    logger := ⟨[], []⟩, events := [] }

/-- Scenario D initial state: fresh Reward proposal for the fourth
principal. -/
def sD : State := threeHolders (rewardProposal "dora" [] [])

/-- Scenario D after the first vote. -/
def sD1 : State := (vote_on_proposal cfg66 collabs0 sD 0 1 0 true "1000").2

/-- Scenario D after the second vote. -/
def sD2 : State := (vote_on_proposal cfg66 collabs0 sD1 0 2 0 true "200").2

/-- Scenario D after the third vote. -/
def sD3 : State := (vote_on_proposal cfg66 collabs0 sD2 0 3 0 true "500").2

/-- Voting power recomputed by a resolve of proposal `p` at `time`. -/
def resolveVP (c : Collabs) (s : State) (p : Proposal) (time : ℕ) : ℕ :=
  computedVotingPower (c.activeVotingPower s time) (time - p.timestamp)

/-- Open Noop proposal by user 1 at time 0. -/
def pNoop : Proposal :=
  { id := 0, proposer := 1, timestamp := 0, post_id := 0, status := Status.Open,
    payload := Payload.Noop, bulletins := [], voting_power := 0 }

/-- Open Fund proposal whose receiver text parses as no principal, with
three approving ballots meeting the approval condition. -/
def pFundBad : Proposal :=
  { pNoop with
    payload := Payload.Fund "unknown" 500,
    bulletins := [(1, true, 20000), (2, true, 40000), (3, true, 80000)] }

/-- State holding `pFundBad` with the three token holders. -/
def sFundBad : State := threeHolders pFundBad

/-- Open Noop proposal with two rejecting ballots out of five holders,
driving a non-controversial rejection (spec Scenario B). -/
def pNoopRejected : Proposal :=
  { pNoop with bulletins := [(2, false, 10000), (3, false, 10000)] }

/-- Scenario B state: five trusted holders of 10000 base units each, the
stalwart user 1 having proposed `pNoopRejected`. -/
def sB : State :=
  { proposals := [pNoopRejected],
    users := [mkUser 1 1 "u1" true 1000, mkUser 2 2 "u2" false 1000,
              mkUser 3 3 "u3" false 1000, mkUser 4 4 "u4" false 1000,
              mkUser 5 5 "u5" false 1000],
    balances := [(1, 10000), (2, 10000), (3, 10000), (4, 10000), (5, 10000)],
    logger := ⟨[], []⟩, events := [] }

/-- State with one Open Release proposal (used by the supersession and
error-path counterexamples). -/
def sRelease : State :=
  { proposals := [{ pNoop with
      payload := Payload.Release { commit := "abc", hash := "digest", binary := [1] } }],
    users := [mkUser 1 1 "u1" true 1000],
    balances := [(1, 10000)],
    logger := ⟨[], []⟩, events := [] }

/-- Release payload used to supersede `sRelease`. -/
def plRelease : Payload :=
  Payload.Release { commit := "def", hash := "", binary := [2] }

/-- Reward proposal whose receiver text parses as no principal, with
ballots meeting the approval condition. -/
def pRewardBad : Proposal :=
  { pNoop with
    payload := Payload.Reward
      { receiver := "unknown",
        votes := [(20000, 100000), (40000, 20000), (80000, 50000)],
        minted := 0 },
    bulletins := [(1, true, 20000), (2, true, 40000), (3, true, 80000)] }

/-- State holding `pRewardBad` with the three token holders. -/
def sRewardBad : State := threeHolders pRewardBad

/-- Scenario D Reward proposal in its fully voted form. -/
def pRewardGood : Proposal :=
  rewardProposal "dora" [(20000, 100000), (40000, 20000), (80000, 50000)]
    [(1, true, 20000), (2, true, 40000), (3, true, 80000)]

/-- State holding `pRewardGood` with the three token holders. -/
def sRewardGood : State := threeHolders pRewardGood

/-- State with one stalwart token holder and no proposals, used to replay a
full propose step from reachability. -/
def sNoProps : State :=
  { proposals := [], users := [mkUser 1 1 "u1" true 1000],
    balances := [(1, 10000)], logger := ⟨[], []⟩, events := [] }

/-- Reward proposal with an unparsable receiver whose tally meets the
rejection and the approval condition at once under an electorate of 100. -/
def pRewardBoth : Proposal :=
  { pNoop with
    payload := Payload.Reward
      { receiver := "unknown", votes := [(100, 0), (100, 0)], minted := 0 },
    bulletins := [(2, true, 100), (3, false, 100)] }

/-- State holding `pRewardBoth` with the three token holders. -/
def sRewardBoth : State := threeHolders pRewardBoth

end Taggr

deriving instance DecidableEq for Except

namespace Taggr


/-! ## Theorems -/

/-- Unsaturated wrapping multiplication. -/
theorem mul64_eq_of_lt {a b : ℕ} (h : a * b < 2 ^ 64) : mul64 a b = a * b :=
  Nat.mod_eq_of_lt h

/-- Unsaturated wrapping addition. -/
theorem add64_eq_of_lt {a b : ℕ} (h : a + b < 2 ^ 64) : add64 a b = a + b :=
  Nat.mod_eq_of_lt h

/-- Cons step of the approving-side sum. -/
theorem approvalsSum_cons (b : UserId × Bool × Token) (l : List (UserId × Bool × Token)) :
    approvalsSum (b :: l) = (if b.2.1 then b.2.2 else 0) + approvalsSum l := by
  cases hb : b.2.1 <;> simp [approvalsSum, List.filter_cons, hb]

/-- Cons step of the rejecting-side sum. -/
theorem rejectsSum_cons (b : UserId × Bool × Token) (l : List (UserId × Bool × Token)) :
    rejectsSum (b :: l) = (if b.2.1 then 0 else b.2.2) + rejectsSum l := by
  cases hb : b.2.1 <;> simp [rejectsSum, List.filter_cons, hb]

/-- Cons step of the total ballot sum. -/
theorem balancesSum_cons (b : UserId × Bool × Token) (l : List (UserId × Bool × Token)) :
    balancesSum (b :: l) = b.2.2 + balancesSum l := by
  simp [balancesSum]

/-- Partition of the ballot total into the two sides. -/
theorem approvalsSum_add_rejectsSum (l : List (UserId × Bool × Token)) :
    approvalsSum l + rejectsSum l = balancesSum l := by
  induction l with
  | nil => rfl
  | cons b l ih =>
    rw [approvalsSum_cons, rejectsSum_cons, balancesSum_cons]
    cases hb : b.2.1 <;> simp <;> omega

/-- Generalised accumulator form of the tally fold: below the wrap the
`u64` fold computes the plain sums. -/
theorem tally_go (l : List (UserId × Bool × Token)) :
    ∀ a r, a + approvalsSum l < 2 ^ 64 → r + rejectsSum l < 2 ^ 64 →
    l.foldl (fun ar b => if b.2.1 then (add64 ar.1 b.2.2, ar.2) else (ar.1, add64 ar.2 b.2.2)) (a, r)
      = (a + approvalsSum l, r + rejectsSum l) := by
  induction l with
  | nil => intro a r _ _; simp [approvalsSum, rejectsSum]
  | cons b l ih =>
    intro a r ha hr
    rw [approvalsSum_cons] at ha
    rw [rejectsSum_cons] at hr
    cases hb : b.2.1
    · simp only [hb] at ha hr
      norm_num at ha hr
      have h1 : add64 r b.2.2 = r + b.2.2 := add64_eq_of_lt (by omega)
      have h2 := ih a (r + b.2.2) (by omega) (by omega)
      simp only [List.foldl_cons]
      rw [if_neg (by simp [hb]), h1, h2, approvalsSum_cons, rejectsSum_cons, hb]
      simp only [Bool.false_eq_true, if_false, Prod.mk.injEq]
      omega
    · simp only [hb] at ha hr
      norm_num at ha hr
      have h1 : add64 a b.2.2 = a + b.2.2 := add64_eq_of_lt (by omega)
      have h2 := ih (a + b.2.2) r (by omega) (by omega)
      simp only [List.foldl_cons]
      rw [if_pos (by simp [hb]), h1, h2, approvalsSum_cons, rejectsSum_cons, hb]
      simp only [if_true, Prod.mk.injEq]
      omega

/-- Below the wrap, the tally of `Proposal::execute` computes the plain
side sums. -/
theorem tally_eq (l : List (UserId × Bool × Token)) (h : balancesSum l < 2 ^ 64) :
    tally l = (approvalsSum l, rejectsSum l) := by
  have hsplit := approvalsSum_add_rejectsSum l
  have := tally_go l 0 0 (by omega) (by omega)
  simpa [tally] using this

/-- Model validation against the reference test `test_reward_proposal`,
case 1 (spec Scenario D): the three recorded votes drive the proposal to
Executed with a minted weighted average of 48571 base units credited to
the receiver. -/
theorem model_validation_scenario_D :
    (vote_on_proposal cfg66 collabs0 sD 0 1 0 true "1000").1 = .ok () ∧
    (vote_on_proposal cfg66 collabs0 sD1 0 2 0 true "200").1 = .ok () ∧
    (vote_on_proposal cfg66 collabs0 sD2 0 3 0 true "500").1 = .ok () ∧
    ((sD3.proposals.get? 0).map (fun p => p.status) = some Status.Executed) ∧
    ((sD3.proposals.get? 0).map (fun p => p.payload) =
      some (Payload.Reward { receiver := "dora", votes := [], minted := 48571 })) ∧
    balanceOf sD3 4 = some 48571 := by
  decide

/-- Claim C2 (amended): every resolve stores as `voting_power` the
saturating `u64` cast of the IEEE-754 double product
`supply * (max(1, 100 -w days) / 100)` (with `-w` the wrapping `u64`
subtraction), not the integer formula of the claim; the two agree at the
scales of the reference tests (electorate 30000 at 0, 1, 2 days open) but
differ for electorates above `2 ^ 53` and for proposals open more than 100
days, where the wrapped factor saturates the cast to the `u64` maximum. -/
theorem claim_C2 :
    (∀ cfg c s p time,
      (Proposal.execute cfg c p s time).2.1.voting_power = resolveVP c s p time) ∧
    computedVotingPower 30000 0 = specVotingPower 30000 0 0 ∧
    computedVotingPower 30000 (HOUR * 24) = specVotingPower 30000 (HOUR * 24) 0 ∧
    computedVotingPower 30000 (2 * (HOUR * 24)) = specVotingPower 30000 (2 * (HOUR * 24)) 0 ∧
    specVotingPower 30000 (HOUR * 24) 0 = 29700 ∧
    computedVotingPower (2 ^ 53 + 1) 0 = 2 ^ 53 ∧
    specVotingPower (2 ^ 53 + 1) 0 0 = 2 ^ 53 + 1 ∧
    computedVotingPower 100 (101 * (HOUR * 24)) = 2 ^ 64 - 1 ∧
    specVotingPower 100 (101 * (HOUR * 24)) 0 = 1 := by
  refine ⟨?_, by decide, by decide, by decide, by decide, by decide, by decide,
    by decide, by decide⟩
  intro cfg c s p time
  simp only [Proposal.execute, resolveVP]
  repeat' split
  all_goals rfl

/-- Counterexample to claim C2 as stated: with an active voting power of
`2 ^ 53 + 1` and a proposal resolved at its creation instant, the stored
voting power is `2 ^ 53` (the `f64` rounding of the electorate), not the
`2 ^ 53 + 1` demanded by the integer formula of the claim. -/
theorem claim_C2_counterexample :
    (Proposal.execute cfg66 collabsBig pNoop sD 0).2.1.voting_power = 2 ^ 53 ∧
    specVotingPower (collabsBig.activeVotingPower sD 0) 0 pNoop.timestamp = 2 ^ 53 + 1 ∧
    (Proposal.execute cfg66 collabsBig pNoop sD 0).2.1.voting_power ≠
      specVotingPower (collabsBig.activeVotingPower sD 0) 0 pNoop.timestamp := by
  decide

/-- Claim C9 (amended): addressing a missing proposal traps; additionally,
a caller with no user record also traps (this is where the original claim
fails); a resolved caller other than the proposer is a silent no-op; the
proposer cancels an Open proposal by a pure status flip and is a silent
no-op in every other status. -/
theorem claim_C9 (s : State) (caller : Principal) (pid : ℕ) :
    (s.proposals.get? pid = none → cancel_proposal s caller pid = none) ∧
    (∀ P, s.proposals.get? pid = some P → principalToUser s caller = none →
      cancel_proposal s caller pid = none) ∧
    (∀ P u, s.proposals.get? pid = some P → principalToUser s caller = some u →
      P.status = Status.Open → P.proposer = u.id →
      cancel_proposal s caller pid =
        some { s with proposals :=
          s.proposals.set pid ({ P with status := Status.Cancelled }) }) ∧
    (∀ P u, s.proposals.get? pid = some P → principalToUser s caller = some u →
      ¬(P.status = Status.Open ∧ P.proposer = u.id) →
      cancel_proposal s caller pid = some s) := by
  refine ⟨?_, ?_, ?_, ?_⟩
  · intro h
    simp only [cancel_proposal, h]
  · intro P h hu
    simp only [cancel_proposal, h, hu]
  · intro P u h hu hst hpr
    simp only [cancel_proposal, h, hu, hst, hpr, and_self, if_true]
  · intro P u h hu hneg
    simp only [cancel_proposal, h, hu, if_neg hneg]

/-- Witness for claim C9: the proposer of the single Open proposal of the
scenario state cancels it. -/
theorem claim_C9_witness :
    cancel_proposal sD 1 0 =
      some { sD with proposals :=
        sD.proposals.set 0 ({ rewardProposal "dora" [] [] with status := Status.Cancelled }) } :=
  (claim_C9 sD 1 0).2.2.1 (rewardProposal "dora" [] [])
    (mkUser 1 1 "u1" true 1000) rfl rfl rfl rfl

/-- Counterexample to claim C9 as stated: the proposal with id 0 exists,
the caller resolves to no user record, and the call traps (modelled as
`none`) instead of being a silent no-op. -/
theorem claim_C9_counterexample :
    cancel_proposal sD 9 0 = none ∧ sD.proposals.get? 0 ≠ none := by
  decide

/-- Inversion of a successful ballot: the checks passed and the only
changes to the proposal are the appended bulletin and, for a Reward
payload, the appended vote entry; all fields relevant to the invariants
are preserved. -/
theorem vote_ok_inv (cfg : Config) (c : Collabs) (p : Proposal) (s : State)
    (pr : Principal) (approve : Bool) (data : String) (p' : Proposal)
    (hok : p.vote cfg c s pr approve data = .ok p') :
    ∃ u bal, principalToUser s pr = some u ∧ u.trusted = true ∧
      p.bulletins.any (fun b => b.1 == u.id) = false ∧
      balanceOf s pr = some bal ∧
      p'.bulletins = p.bulletins ++ [(u.id, approve, bal)] ∧
      p'.status = p.status ∧ p'.id = p.id ∧ p'.proposer = p.proposer ∧
      p'.timestamp = p.timestamp ∧ p'.voting_power = p.voting_power ∧
      p'.payload.isRelease = p.payload.isRelease ∧
      (∀ c' : Collabs, badReward c' p' = badReward c' p) := by
  rw [Proposal.vote] at hok
  split at hok
  · exact absurd hok (by simp)
  case _ u hu =>
    split at hok
    · exact absurd hok (by simp)
    case _ htr =>
      split at hok
      · exact absurd hok (by simp)
      case _ hdv =>
        split at hok
        · exact absurd hok (by simp)
        case _ bal hbal =>
          have htr' : u.trusted = true := by
            cases h2 : u.trusted with
            | true => rfl
            | false => exact absurd (by simp [h2]) htr
          have hdv' : p.bulletins.any (fun b => b.1 == u.id) = false := by
            cases h2 : p.bulletins.any (fun b => b.1 == u.id) with
            | false => rfl
            | true => exact absurd h2 hdv
          refine ⟨u, bal, hu, htr', hdv', hbal, ?_⟩
          split at hok
          case _ release hpay =>
            split at hok
            · exact absurd hok (by simp)
            · cases hok
              exact ⟨rfl, rfl, rfl, rfl, rfl, rfl, rfl, fun _ => rfl⟩
          case _ receiver tokens hpay =>
            split at hok
            · exact absurd hok (by simp)
            · cases hok
              exact ⟨rfl, rfl, rfl, rfl, rfl, rfl, rfl, fun _ => rfl⟩
          case _ reward hpay =>
            split at hok
            · exact absurd hok (by simp)
            · dsimp only at hok
              split at hok
              · exact absurd hok (by simp)
              case _ tokens hparse =>
                split at hok
                · exact absurd hok (by simp)
                · cases hok
                  refine ⟨rfl, rfl, rfl, rfl, rfl, rfl, ?_, ?_⟩
                  · simp [hpay, Payload.isRelease]
                  · intro c'
                    simp [hpay, badReward]
          case _ hp1 hp2 hp3 =>
            cases hok
            exact ⟨rfl, rfl, rfl, rfl, rfl, rfl, rfl, fun _ => rfl⟩

/-- Claim C8: the ballot engine checks, in this precedence: unknown
principal, untrusted user, duplicate ballot, missing balance entry; on a
successful vote exactly the one bulletin `(voter, approve, balance)` is
appended, so distinctness of the voter ids in `bulletins` is preserved. -/
theorem claim_C8 (cfg : Config) (c : Collabs) (p : Proposal) (s : State)
    (pr : Principal) (approve : Bool) (data : String) :
    (principalToUser s pr = none →
      p.vote cfg c s pr approve data = .error "no user found") ∧
    (∀ u, principalToUser s pr = some u → u.trusted = false →
      p.vote cfg c s pr approve data = .error "only trusted users can vote") ∧
    (∀ u, principalToUser s pr = some u → u.trusted = true →
      p.bulletins.any (fun b => b.1 == u.id) = true →
      p.vote cfg c s pr approve data = .error "double vote") ∧
    (∀ u, principalToUser s pr = some u → u.trusted = true →
      p.bulletins.any (fun b => b.1 == u.id) = false → balanceOf s pr = none →
      p.vote cfg c s pr approve data = .error "only token holders can vote") ∧
    (∀ u bal p', principalToUser s pr = some u → balanceOf s pr = some bal →
      p.vote cfg c s pr approve data = .ok p' →
      p'.bulletins = p.bulletins ++ [(u.id, approve, bal)]) ∧
    (∀ p', p.vote cfg c s pr approve data = .ok p' →
      (p.bulletins.map (fun b => b.1)).Nodup →
      (p'.bulletins.map (fun b => b.1)).Nodup) := by
  refine ⟨?_, ?_, ?_, ?_, ?_, ?_⟩
  · intro h
    simp only [Proposal.vote, h]
  · intro u hu ht
    simp only [Proposal.vote, hu, ht, Bool.not_false, if_true]
  · intro u hu ht hd
    simp [Proposal.vote, hu, ht, hd]
  · intro u hu ht hd hb
    simp [Proposal.vote, hu, ht, hd, hb]
  · intro u bal p' hu hb hok
    obtain ⟨u2, bal2, hu2, _, _, hb2, happ, _⟩ :=
      vote_ok_inv cfg c p s pr approve data p' hok
    rw [hu] at hu2
    rw [hb] at hb2
    cases hu2
    cases hb2
    exact happ
  · intro p' hok hnd
    obtain ⟨u, bal, hu, _, hdv, hb, happ, _⟩ :=
      vote_ok_inv cfg c p s pr approve data p' hok
    have hne : ∀ b ∈ p.bulletins, b.1 ≠ u.id := by
      intro b hbmem
      have h2 := List.any_eq_false.mp hdv b hbmem
      simpa using h2
    rw [happ]
    simp only [List.map_append, List.map_cons, List.map_nil]
    rw [List.nodup_append]
    refine ⟨hnd, List.nodup_singleton _, ?_⟩
    intro x hx hmem
    simp only [List.mem_map] at hx
    obtain ⟨b, hbmem, hbx⟩ := hx
    simp only [List.mem_singleton] at hmem
    exact hne b hbmem (by rw [hbx, hmem])

/-- Claim C1 (amended): at a resolve of an Open proposal whose tallies and
voting power stay below the `u64` wrap, the rejection condition is
evaluated first and forces status Rejected; otherwise, when the approval
condition holds, the payload effects are attempted — on success the status
becomes Executed, on failure the error is returned and the status remains
Open; otherwise the proposal stays Open and the resolve succeeds. -/
theorem claim_C1 (cfg : Config) (c : Collabs) (p : Proposal) (s : State)
    (time : ℕ) (A R vp : ℕ)
    (hA : A = approvalsSum p.bulletins)
    (hR : R = rejectsSum p.bulletins)
    (hvp : vp = resolveVP c s p time)
    (hT : cfg.proposal_approval_threshold ≤ 100)
    (hopen : p.status = Status.Open)
    (hsum : balancesSum p.bulletins * 100 < 2 ^ 64)
    (hvpB : vp * 100 < 2 ^ 64) :
    (R * 100 ≥ vp * (100 - cfg.proposal_approval_threshold) →
      (Proposal.execute cfg c p s time).2.1.status = Status.Rejected) ∧
    (R * 100 < vp * (100 - cfg.proposal_approval_threshold) →
      A * 100 ≥ vp * cfg.proposal_approval_threshold →
      ((Proposal.execute cfg c p s time).1 = .ok () →
        (Proposal.execute cfg c p s time).2.1.status = Status.Executed) ∧
      (isError (Proposal.execute cfg c p s time).1 = true →
        (Proposal.execute cfg c p s time).2.1.status = Status.Open)) ∧
    (R * 100 < vp * (100 - cfg.proposal_approval_threshold) →
      A * 100 < vp * cfg.proposal_approval_threshold →
      (Proposal.execute cfg c p s time).1 = .ok () ∧
      (Proposal.execute cfg c p s time).2.1.status = Status.Open) := by
  subst hA hR hvp
  have hbs : balancesSum p.bulletins < 2 ^ 64 :=
    lt_of_le_of_lt (Nat.le_mul_of_pos_right _ (by norm_num)) hsum
  have hsplit := approvalsSum_add_rejectsSum p.bulletins
  have hAb : approvalsSum p.bulletins ≤ balancesSum p.bulletins := by omega
  have hRb : rejectsSum p.bulletins ≤ balancesSum p.bulletins := by omega
  have htal := tally_eq p.bulletins hbs
  have e1 : mul64 (rejectsSum p.bulletins) 100 = rejectsSum p.bulletins * 100 :=
    mul64_eq_of_lt (lt_of_le_of_lt (Nat.mul_le_mul_right 100 hRb) hsum)
  have e2 : mul64 (approvalsSum p.bulletins) 100 = approvalsSum p.bulletins * 100 :=
    mul64_eq_of_lt (lt_of_le_of_lt (Nat.mul_le_mul_right 100 hAb) hsum)
  have e3 : mul64 (resolveVP c s p time) (100 - cfg.proposal_approval_threshold) =
      resolveVP c s p time * (100 - cfg.proposal_approval_threshold) :=
    mul64_eq_of_lt (lt_of_le_of_lt (Nat.mul_le_mul_left _ (by omega)) hvpB)
  have e4 : mul64 (resolveVP c s p time) cfg.proposal_approval_threshold =
      resolveVP c s p time * cfg.proposal_approval_threshold :=
    mul64_eq_of_lt (lt_of_le_of_lt (Nat.mul_le_mul_left _ hT) hvpB)
  simp only [Proposal.execute, resolveVP] at e3 e4 ⊢
  rw [htal]
  simp only [resolveVP] at hvpB
  refine ⟨?_, ?_, ?_⟩
  · intro hrej
    rw [if_pos (by rw [e1, e3]; exact hrej)]
    repeat' split
    all_goals rfl
  · intro hrej happ
    rw [if_neg (by rw [e1, e3]; omega), if_pos (by rw [e2, e4]; exact happ)]
    constructor
    · intro hok
      split at hok
      case _ receiver tokens hpay =>
        split at hok <;> simp_all
      case _ reward hpay =>
        split at hok <;> simp_all
      case _ hp1 hp2 hp3 =>
        rfl
    · intro herr
      split at herr
      case _ receiver tokens hpay =>
        split at herr
        · exact hopen
        · simp [isError] at herr
      case _ reward hpay =>
        split at herr
        · exact hopen
        · simp [isError] at herr
      case _ hp1 hp2 hp3 =>
        simp [isError] at herr
  · intro hrej happ
    rw [if_neg (by rw [e1, e3]; omega), if_neg (by rw [e2, e4]; omega)]
    exact ⟨rfl, hopen⟩

/-- Error log entries survive `logInfo`. -/
theorem logInfo_errors (s : State) (m : String) :
    (logInfo s m).logger.errors = s.logger.errors := rfl

/-- User updates keep the logger. -/
theorem updateUser_logger (s : State) (u : User) :
    (updateUser s u).logger = s.logger := rfl

/-- Ledger minting keeps the logger. -/
theorem mintBal_logger (s : State) (pr : Principal) (n : Token) :
    (mintBal s pr n).logger = s.logger := rfl

/-- User notification keeps the logger. -/
theorem userNotify_logger (s : State) (uid : UserId) (m : String) :
    (userNotify s uid m).logger = s.logger := by
  rw [userNotify]
  split <;> rfl

/-- Successful cycle charge keeps the logger. -/
theorem charge_ok_logger (s : State) (uid : UserId) (amt : ℕ) (s' : State)
    (h : s.charge uid amt = .ok s') : s'.logger = s.logger := by
  rw [State.charge] at h
  split at h
  · exact absurd h (by simp)
  · cases h
    rfl

/-- Successful token minting appends no error log entry. -/
theorem mint_tokens_ok_errors (cfg : Config) (c : Collabs) (s : State)
    (rcv : String) (tk : Token) (s' : State)
    (h : mint_tokens cfg c s rcv tk = .ok s') :
    s'.logger.errors = s.logger.errors := by
  rw [mint_tokens] at h
  split at h
  · exact absurd h (by simp)
  · dsimp only at h
    split at h <;> cases h
    · rw [userNotify_logger]
      rfl
    · rfl

/-- The resolver itself never writes an error log entry; its state result
keeps the error log of the entry state. -/
theorem execute_logger_errors (cfg : Config) (c : Collabs) (p : Proposal)
    (s : State) (time : ℕ) :
    (Proposal.execute cfg c p s time).2.2.logger.errors = s.logger.errors := by
  have hifte : ∀ (cond : Prop) [Decidable cond] (m : String),
      (if cond then logInfo s m else s).logger.errors = s.logger.errors := by
    intro cond inst m
    split <;> rfl
  simp only [Proposal.execute]
  generalize hS : (if 0 < p.voting_power ∧
      computedVotingPower (c.activeVotingPower s time) (time - p.timestamp) < p.voting_power
    then logInfo s "Decreasing the total voting power on latest proposal."
    else s) = S
  have hSerr : S.logger.errors = s.logger.errors := by
    rw [← hS]
    exact hifte _ _
  repeat' split
  all_goals dsimp only
  all_goals
    first
      | exact hSerr
      | (rename_i s2 hs2
         rw [charge_ok_logger _ _ _ _ hs2, updateUser_logger, hSerr])
      | (rename_i s2 hs2
         rw [mint_tokens_ok_errors _ _ _ _ _ _ hs2, hSerr])

/-- Status commitment of the rejection branch: under the rejection
condition the resolver returns the proposal with status Rejected, whatever
the outcome of the penalty application. -/
theorem execute_reject_status (cfg : Config) (c : Collabs) (p : Proposal)
    (s : State) (time : ℕ)
    (hT : cfg.proposal_approval_threshold ≤ 100)
    (hsum : balancesSum p.bulletins * 100 < 2 ^ 64)
    (hvpB : resolveVP c s p time * 100 < 2 ^ 64)
    (hrej : rejectsSum p.bulletins * 100 ≥
      resolveVP c s p time * (100 - cfg.proposal_approval_threshold)) :
    (Proposal.execute cfg c p s time).2.1.status = Status.Rejected := by
  have hbs : balancesSum p.bulletins < 2 ^ 64 :=
    lt_of_le_of_lt (Nat.le_mul_of_pos_right _ (by norm_num)) hsum
  have hsplit := approvalsSum_add_rejectsSum p.bulletins
  have hRb : rejectsSum p.bulletins ≤ balancesSum p.bulletins := by omega
  have htal := tally_eq p.bulletins hbs
  have e1 : mul64 (rejectsSum p.bulletins) 100 = rejectsSum p.bulletins * 100 :=
    mul64_eq_of_lt (lt_of_le_of_lt (Nat.mul_le_mul_right 100 hRb) hsum)
  have e3 : mul64 (resolveVP c s p time) (100 - cfg.proposal_approval_threshold) =
      resolveVP c s p time * (100 - cfg.proposal_approval_threshold) :=
    mul64_eq_of_lt (lt_of_le_of_lt (Nat.mul_le_mul_left _ (by omega)) hvpB)
  simp only [Proposal.execute, resolveVP] at e1 e3 ⊢
  rw [htal]
  rw [if_pos (by rw [e1, e3]; exact hrej)]
  repeat' split
  all_goals rfl

/-- Claim C5 (amended): a rejection transition is committed before the
penalty side of the Executor runs, so it survives an Executor failure; any
resolver failure is logged and returned; but a payload-effect failure on
the approval path happens before the transition, so the proposal then
stays Open rather than terminal. -/
theorem claim_C5 (cfg : Config) (c : Collabs) (s : State) (pid time : ℕ) :
    (∀ P, s.proposals.get? pid = some P → P.status = Status.Open →
      cfg.proposal_approval_threshold ≤ 100 →
      balancesSum P.bulletins * 100 < 2 ^ 64 →
      resolveVP c s P time * 100 < 2 ^ 64 →
      rejectsSum P.bulletins * 100 ≥
        resolveVP c s P time * (100 - cfg.proposal_approval_threshold) →
      ((execute_proposal cfg c s pid time).2.proposals.get? pid).map Proposal.status =
        some Status.Rejected) ∧
    (∀ P, s.proposals.get? pid = some P → P.status = Status.Open →
      ∀ e, (Proposal.execute cfg c P s time).1 = .error e →
      (execute_proposal cfg c s pid time).1 = .error e ∧
      (execute_proposal cfg c s pid time).2.logger.errors =
        s.logger.errors ++ ["Proposal execution failed: " ++ e]) := by
  constructor
  · intro P hget hopen hT hsum hvpB hrej
    have hlen : pid < s.proposals.length := List.get?_eq_some.mp hget |>.1
    have hst := execute_reject_status cfg c P s time hT hsum hvpB hrej
    simp only [execute_proposal, hget]
    rw [if_neg (by simp [hopen])]
    rw [List.get?_set_eq_of_lt _ hlen]
    simp [hst]
  · intro P hget hopen e herr
    simp only [execute_proposal, hget]
    rw [if_neg (by simp [hopen])]
    simp only [herr]
    refine ⟨trivial, ?_⟩
    simp only [denotifyEvent, logInfo, logError]
    split
    · simp [execute_logger_errors]
    · simp [execute_logger_errors]

/-- Counterexample to claim C5 as stated: resolving the approval-ready
Fund proposal with an unparsable receiver makes the Executor fail
mid-execution, yet the proposal does not stay in a terminal state: it
remains Open. -/
theorem claim_C5_counterexample :
    isError (execute_proposal cfg66 collabs0 sFundBad 0 0).1 = true ∧
    ((execute_proposal cfg66 collabs0 sFundBad 0 0).2.proposals.get? 0).map
      Proposal.status = some Status.Open ∧
    some Status.Open ≠ some Status.Rejected ∧
    some Status.Open ≠ some Status.Executed := by
  decide

/-- Witness for claim C5: the failing Fund resolve returns the parse error
and appends exactly the one execution-failure entry to the error log. -/
theorem claim_C5_witness :
    (execute_proposal cfg66 collabs0 sFundBad 0 0).1 = .error "invalid principal text" ∧
    (execute_proposal cfg66 collabs0 sFundBad 0 0).2.logger.errors =
      sFundBad.logger.errors ++ ["Proposal execution failed: " ++ "invalid principal text"] :=
  (claim_C5 cfg66 collabs0 sFundBad 0 0).2 pFundBad rfl rfl
    "invalid principal text" (by decide)

/-- Counterexample to claim C1 as stated: a Fund proposal with an
unparsable receiver meets the approval condition (and not the rejection
condition) at a resolve, yet the resolve errors and the status remains
Open instead of becoming Executed. -/
theorem claim_C1_counterexample :
    rejectsSum pFundBad.bulletins * 100 <
      resolveVP collabs0 sFundBad pFundBad 0 * (100 - cfg66.proposal_approval_threshold) ∧
    approvalsSum pFundBad.bulletins * 100 ≥
      resolveVP collabs0 sFundBad pFundBad 0 * cfg66.proposal_approval_threshold ∧
    isError (Proposal.execute cfg66 collabs0 pFundBad sFundBad 0).1 = true ∧
    (Proposal.execute cfg66 collabs0 pFundBad sFundBad 0).2.1.status = Status.Open ∧
    (Proposal.execute cfg66 collabs0 pFundBad sFundBad 0).2.1.status ≠ Status.Executed := by
  decide

/-- Witness for claim C1: the two rejecting ballots of Scenario B trip the
rejection condition and the resolve marks the proposal Rejected. -/
theorem claim_C1_witness :
    (Proposal.execute cfg66 collabs0 pNoopRejected sB 0).2.1.status = Status.Rejected :=
  (claim_C1 cfg66 collabs0 pNoopRejected sB 0 0 20000 50000 (by decide) (by decide)
    (by decide) (by decide) (by decide) (by decide) (by decide)).1 (by decide)

/-- User notification keeps the ledger. -/
theorem userNotify_balances (s : State) (uid : UserId) (m : String) :
    (userNotify s uid m).balances = s.balances := by
  rw [userNotify]
  split <;> rfl

/-- Balance lookups only read the ledger. -/
theorem balanceOf_eq_of_balances (s1 s2 : State) (pr : Principal)
    (h : s1.balances = s2.balances) : balanceOf s1 pr = balanceOf s2 pr := by
  rw [balanceOf, balanceOf, h]

/-- Crediting map of the ledger commutes with the entry lookup. -/
theorem find?_map_credit (pr : Principal) (n : Token) (l : List (Principal × Token)) :
    (l.map (fun e => if e.1 == pr then (e.1, e.2 + n) else e)).find? (fun e => e.1 == pr) =
      (l.find? (fun e => e.1 == pr)).map (fun e => (e.1, e.2 + n)) := by
  induction l with
  | nil => rfl
  | cons e l ih =>
    rw [List.map_cons, List.find?_cons, List.find?_cons]
    by_cases hb : (e.1 == pr) = true
    · have h2 : ((e.1, e.2 + n).1 == pr) = true := hb
      rw [if_pos hb, h2]
      rfl
    · have he : (e.1 == pr) = false := by simpa using hb
      rw [if_neg hb, he]
      exact ih

/-- Ledger minting credits exactly the minted amount to the receiving
account, creating it at the amount when absent. -/
theorem balanceOf_mintBal (s : State) (pr : Principal) (n : Token) :
    balanceOf (mintBal s pr n) pr = some ((balanceOf s pr).getD 0 + n) := by
  rw [balanceOf, mintBal]
  cases hany : s.balances.any (fun e => e.1 == pr)
  · simp only [hany, Bool.false_eq_true, if_false]
    have hnone : s.balances.find? (fun e => e.1 == pr) = none := by
      rw [List.find?_eq_none]
      intro x hx
      simpa using List.any_eq_false.mp hany x hx
    rw [List.find?_append, hnone]
    simp [balanceOf, hnone]
  · simp only [hany, if_true]
    rw [find?_map_credit]
    have hex : (s.balances.find? (fun e => e.1 == pr)).isSome := by
      rw [List.find?_isSome]
      simpa using List.any_eq_true.mp hany
    obtain ⟨e0, he0⟩ := Option.isSome_iff_exists.mp hex
    rw [he0]
    simp [balanceOf, he0]

/-- Minting to a parsable receiver always succeeds, and the resulting
ledger is the credited ledger. -/
theorem mint_tokens_ok_of_parse (cfg : Config) (c : Collabs) (s : State)
    (rcv : String) (q : Principal) (tk : Token)
    (hparse : c.parsePrincipal rcv = .ok q) :
    ∃ s', mint_tokens cfg c s rcv tk = .ok s' ∧
      s'.balances = (mintBal s q tk).balances := by
  rw [mint_tokens, hparse]
  dsimp only
  split
  · exact ⟨_, rfl, by rw [userNotify_balances]; rfl⟩
  · exact ⟨_, rfl, rfl⟩

/-- Generalised accumulator form of the `u64` vote-total fold. -/
theorem foldl_add64_eq (l : List (ℕ × ℕ)) :
    ∀ a, a + (l.map Prod.fst).sum < 2 ^ 64 →
      l.foldl (fun t v => add64 t v.1) a = a + (l.map Prod.fst).sum := by
  induction l with
  | nil => intro a _; simp
  | cons v l ih =>
    intro a ha
    rw [List.map_cons, List.sum_cons] at ha
    have h1 : add64 a v.1 = a + v.1 := add64_eq_of_lt (by omega)
    simp only [List.foldl_cons]
    rw [h1, ih (a + v.1) (by omega)]
    rw [List.map_cons, List.sum_cons]
    omega

/-- Claim C3: a Reward proposal with a parsable receiver that meets the
approval condition at a resolve mints exactly the `f32`-accumulated,
truncated balance-weighted reward average to the receiver, stores it in
`minted`, clears the collected votes, and flips the status to Executed;
the weighting denominator is the sum of all collected vote balances,
approving and rejecting alike. -/
theorem claim_C3 (cfg : Config) (c : Collabs) (s : State) (time : ℕ)
    (p : Proposal) (r : Reward) (rcv : Principal) (A R vp : ℕ)
    (hpay : p.payload = Payload.Reward r)
    (hparse : c.parsePrincipal r.receiver = .ok rcv)
    (hA : A = approvalsSum p.bulletins)
    (hR : R = rejectsSum p.bulletins)
    (hvp : vp = resolveVP c s p time)
    (hT : cfg.proposal_approval_threshold ≤ 100)
    (hsum : balancesSum p.bulletins * 100 < 2 ^ 64)
    (hvpB : vp * 100 < 2 ^ 64)
    (hrej : R * 100 < vp * (100 - cfg.proposal_approval_threshold))
    (happ : A * 100 ≥ vp * cfg.proposal_approval_threshold)
    (htot : (r.votes.map Prod.fst).sum < 2 ^ 64) :
    (Proposal.execute cfg c p s time).1 = .ok () ∧
    (Proposal.execute cfg c p s time).2.1.status = Status.Executed ∧
    (Proposal.execute cfg c p s time).2.1.payload =
      Payload.Reward { r with votes := [], minted := rewardMintAmount r.votes } ∧
    balanceOf (Proposal.execute cfg c p s time).2.2 rcv =
      some ((balanceOf s rcv).getD 0 + rewardMintAmount r.votes) ∧
    r.votes.foldl (fun t v => add64 t v.1) 0 = (r.votes.map Prod.fst).sum := by
  subst hA hR hvp
  have hbs : balancesSum p.bulletins < 2 ^ 64 :=
    lt_of_le_of_lt (Nat.le_mul_of_pos_right _ (by norm_num)) hsum
  have hsplit := approvalsSum_add_rejectsSum p.bulletins
  have hAb : approvalsSum p.bulletins ≤ balancesSum p.bulletins := by omega
  have hRb : rejectsSum p.bulletins ≤ balancesSum p.bulletins := by omega
  have htal := tally_eq p.bulletins hbs
  have e1 : mul64 (rejectsSum p.bulletins) 100 = rejectsSum p.bulletins * 100 :=
    mul64_eq_of_lt (lt_of_le_of_lt (Nat.mul_le_mul_right 100 hRb) hsum)
  have e2 : mul64 (approvalsSum p.bulletins) 100 = approvalsSum p.bulletins * 100 :=
    mul64_eq_of_lt (lt_of_le_of_lt (Nat.mul_le_mul_right 100 hAb) hsum)
  have e3 : mul64 (resolveVP c s p time) (100 - cfg.proposal_approval_threshold) =
      resolveVP c s p time * (100 - cfg.proposal_approval_threshold) :=
    mul64_eq_of_lt (lt_of_le_of_lt (Nat.mul_le_mul_left _ (by omega)) hvpB)
  have e4 : mul64 (resolveVP c s p time) cfg.proposal_approval_threshold =
      resolveVP c s p time * cfg.proposal_approval_threshold :=
    mul64_eq_of_lt (lt_of_le_of_lt (Nat.mul_le_mul_left _ hT) hvpB)
  have htotal := foldl_add64_eq r.votes 0 (by simpa using htot)
  simp only [resolveVP] at hrej happ
  simp only [Proposal.execute, resolveVP] at e3 e4 ⊢
  generalize hS : (if 0 < p.voting_power ∧
      computedVotingPower (c.activeVotingPower s time) (time - p.timestamp) < p.voting_power
    then logInfo s "Decreasing the total voting power on latest proposal."
    else s) = S
  have hSbal : S.balances = s.balances := by
    rw [← hS]
    split <;> rfl
  rw [htal]
  rw [if_neg (by rw [e1, e3]; omega), if_pos (by rw [e2, e4]; exact happ), hpay]
  obtain ⟨s', hmint, hbal⟩ :=
    mint_tokens_ok_of_parse cfg c S r.receiver rcv (rewardMintAmount r.votes) hparse
  dsimp only
  rw [hmint]
  refine ⟨rfl, rfl, rfl, ?_, by simpa using htotal⟩
  rw [balanceOf_eq_of_balances _ _ _ hbal, balanceOf_mintBal,
    balanceOf_eq_of_balances _ _ _ hSbal]

/-- Witness for claim C3: the fully voted Scenario D proposal resolves to
Executed, stores the `f32` weighted average 48571 in `minted`, clears the
votes, and credits the receiver with exactly that amount. -/
theorem claim_C3_witness :
    (Proposal.execute cfg66 collabs0 pRewardGood sRewardGood 0).1 = .ok () ∧
    (Proposal.execute cfg66 collabs0 pRewardGood sRewardGood 0).2.1.status = Status.Executed ∧
    (Proposal.execute cfg66 collabs0 pRewardGood sRewardGood 0).2.1.payload =
      Payload.Reward
        { receiver := "dora", votes := [],
          minted := rewardMintAmount [(20000, 100000), (40000, 20000), (80000, 50000)] } ∧
    balanceOf (Proposal.execute cfg66 collabs0 pRewardGood sRewardGood 0).2.2 4 =
      some ((balanceOf sRewardGood 4).getD 0 +
        rewardMintAmount [(20000, 100000), (40000, 20000), (80000, 50000)]) ∧
    rewardMintAmount [(20000, 100000), (40000, 20000), (80000, 50000)] = 48571 := by
  have h := claim_C3 cfg66 collabs0 sRewardGood 0 pRewardGood
    { receiver := "dora", votes := [(20000, 100000), (40000, 20000), (80000, 50000)],
      minted := 0 }
    4 140000 0 140000 rfl rfl (by decide) (by decide) (by decide) (by decide)
    (by decide) (by decide) (by decide) (by decide) (by decide)
  exact ⟨h.1, h.2.1, h.2.2.1, h.2.2.2.1, by decide⟩

/-- User lookups only read the user list. -/
theorem userById_users_eq (s1 s2 : State) (uid : UserId)
    (h : s1.users = s2.users) : userById s1 uid = userById s2 uid := by
  rw [userById, userById, h]

/-- Replacement map of the user list finds the replacement when the id was
present. -/
theorem find?_update_self (uid : ℕ) (w : User) (hw : w.id = uid) (l : List User) :
    (l.find? (fun u => u.id == uid)).isSome →
    (l.map (fun v => if v.id == w.id then w else v)).find? (fun u => u.id == uid) = some w := by
  induction l with
  | nil => intro h; simp at h
  | cons v l ih =>
    intro hex
    by_cases hv : (v.id == uid) = true
    · have hvw : (v.id == w.id) = true := by
        simp only [beq_iff_eq] at hv ⊢
        rw [hv, hw]
      have hpw : (w.id == uid) = true := by simp [hw]
      rw [List.map_cons, List.find?_cons, if_pos hvw, hpw]
    · have hv' : (v.id == uid) = false := by simpa using hv
      have hvw : (v.id == w.id) = false := by
        simp only [beq_eq_false_iff_ne] at hv' ⊢
        rw [hw]
        exact hv'
      rw [List.map_cons, List.find?_cons, if_neg (by simp [hvw]), hv']
      apply ih
      rw [List.find?_cons, hv'] at hex
      exact hex

/-- Replacement map of the user list is invisible to lookups of a
different id. -/
theorem find?_update_other (uid : ℕ) (w : User) (hw : ¬ w.id = uid) (l : List User) :
    (l.map (fun v => if v.id == w.id then w else v)).find? (fun u => u.id == uid) =
      l.find? (fun u => u.id == uid) := by
  induction l with
  | nil => rfl
  | cons v l ih =>
    rw [List.map_cons, List.find?_cons, List.find?_cons]
    by_cases hvw : (v.id == w.id) = true
    · have hpw : (w.id == uid) = false := by simp [hw]
      have hpv : (v.id == uid) = false := by
        simp only [beq_iff_eq] at hvw
        simp only [beq_eq_false_iff_ne]
        rw [hvw]
        exact hw
      rw [if_pos hvw, hpw, hpv]
      exact ih
    · rw [if_neg hvw]
      by_cases hpv : (v.id == uid) = true
      · rw [hpv]
      · have hpv' : (v.id == uid) = false := by simpa using hpv
        rw [hpv']
        exact ih

/-- Lifting of `find?_update_self` to the state. -/
theorem userById_updateUser_self (s : State) (w : User) (uid : UserId)
    (hw : w.id = uid) (hex : (userById s uid).isSome) :
    userById (updateUser s w) uid = some w := by
  rw [userById] at hex
  rw [userById, updateUser]
  exact find?_update_self uid w hw s.users hex

/-- Lifting of `find?_update_other` to the state. -/
theorem userById_updateUser_other (s : State) (w : User) (uid : UserId)
    (hw : ¬ w.id = uid) :
    userById (updateUser s w) uid = userById s uid := by
  rw [userById, userById, updateUser]
  exact find?_update_other uid w hw s.users

/-- Claim C7: at a rejection transition with in-range tallies, the
proposer penalty is applied exactly when the rejection is
non-controversial (approvals*100 < C*rejects), it consists of clearing the
stalwart flag, zeroing active weeks, subtracting the penalty from karma
and charging min(cycles, penalty) cycles (so the balance is never driven
negative), it touches no other user, and it can happen at most once per
proposal because a resolve of a non-Open proposal is a rejected no-op. -/
theorem claim_C7 (cfg : Config) (c : Collabs) (p : Proposal) (s : State)
    (time : ℕ) (A R vp : ℕ)
    (hA : A = approvalsSum p.bulletins)
    (hR : R = rejectsSum p.bulletins)
    (hvp : vp = resolveVP c s p time)
    (hT : cfg.proposal_approval_threshold ≤ 100)
    (hsum : balancesSum p.bulletins * 100 < 2 ^ 64)
    (hvpB : vp * 100 < 2 ^ 64)
    (hC : cfg.proposal_controversy_threashold * R < 2 ^ 64)
    (hrej : R * 100 ≥ vp * (100 - cfg.proposal_approval_threshold)) :
    (∀ u, A * 100 < cfg.proposal_controversy_threashold * R →
      userById s p.proposer = some u →
      (Proposal.execute cfg c p s time).1 = .ok () ∧
      (Proposal.execute cfg c p s time).2.1.status = Status.Rejected ∧
      userById (Proposal.execute cfg c p s time).2.2 p.proposer =
        some { u with
               stalwart := false,
               active_weeks := 0,
               karma := u.karma - (cfg.proposal_rejection_penalty : ℤ),
               cycles := u.cycles - min u.cycles cfg.proposal_rejection_penalty } ∧
      min u.cycles cfg.proposal_rejection_penalty ≤ u.cycles ∧
      (∀ uid, uid ≠ p.proposer →
        userById (Proposal.execute cfg c p s time).2.2 uid = userById s uid)) ∧
    (A * 100 ≥ cfg.proposal_controversy_threashold * R →
      (Proposal.execute cfg c p s time).1 = .ok () ∧
      (Proposal.execute cfg c p s time).2.1.status = Status.Rejected ∧
      (Proposal.execute cfg c p s time).2.2.users = s.users) ∧
    (∀ pid P, s.proposals.get? pid = some P → P.status ≠ Status.Open →
      execute_proposal cfg c s pid time = (.error "last proposal is not open", s)) := by
  subst hA hR hvp
  have hbs : balancesSum p.bulletins < 2 ^ 64 :=
    lt_of_le_of_lt (Nat.le_mul_of_pos_right _ (by norm_num)) hsum
  have hsplit := approvalsSum_add_rejectsSum p.bulletins
  have hAb : approvalsSum p.bulletins ≤ balancesSum p.bulletins := by omega
  have hRb : rejectsSum p.bulletins ≤ balancesSum p.bulletins := by omega
  have htal := tally_eq p.bulletins hbs
  have e1 : mul64 (rejectsSum p.bulletins) 100 = rejectsSum p.bulletins * 100 :=
    mul64_eq_of_lt (lt_of_le_of_lt (Nat.mul_le_mul_right 100 hRb) hsum)
  have e2 : mul64 (approvalsSum p.bulletins) 100 = approvalsSum p.bulletins * 100 :=
    mul64_eq_of_lt (lt_of_le_of_lt (Nat.mul_le_mul_right 100 hAb) hsum)
  have e3 : mul64 (resolveVP c s p time) (100 - cfg.proposal_approval_threshold) =
      resolveVP c s p time * (100 - cfg.proposal_approval_threshold) :=
    mul64_eq_of_lt (lt_of_le_of_lt (Nat.mul_le_mul_left _ (by omega)) hvpB)
  have e5 : mul64 cfg.proposal_controversy_threashold (rejectsSum p.bulletins) =
      cfg.proposal_controversy_threashold * rejectsSum p.bulletins :=
    mul64_eq_of_lt hC
  simp only [resolveVP] at hrej
  simp only [Proposal.execute, resolveVP] at e3 ⊢
  generalize hS : (if 0 < p.voting_power ∧
      computedVotingPower (c.activeVotingPower s time) (time - p.timestamp) < p.voting_power
    then logInfo s "Decreasing the total voting power on latest proposal."
    else s) = S
  have hSu : S.users = s.users := by
    rw [← hS]
    split <;> rfl
  rw [htal]
  rw [if_pos (by rw [e1, e3]; exact hrej)]
  refine ⟨?_, ?_, ?_⟩
  · intro u hctl hu
    rw [if_pos (by rw [e2, e5]; exact hctl)]
    have hid : u.id = p.proposer := by
      rw [userById] at hu
      have := List.find?_some hu
      simpa using this
    have hUS : userById S p.proposer = some u := by
      rw [userById_users_eq S s _ hSu]
      exact hu
    rw [hUS]
    try dsimp only
    set w1 : User := { u with
      stalwart := false,
      active_weeks := 0,
      karma := u.karma - (cfg.proposal_rejection_penalty : ℤ) } with hw1
    have hid1 : w1.id = p.proposer := hid
    have hself : userById (updateUser S w1) p.proposer = some w1 :=
      userById_updateUser_self S w1 p.proposer hid1 (by rw [hUS]; rfl)
    simp only [State.charge, hself]
    try dsimp only
    have hid2 : ({ w1 with
        cycles := w1.cycles - min w1.cycles cfg.proposal_rejection_penalty } : User).id =
        p.proposer := hid
    have hfin : userById (updateUser (updateUser S w1)
        ({ w1 with cycles := w1.cycles - min w1.cycles cfg.proposal_rejection_penalty }))
        p.proposer =
        some ({ w1 with
          cycles := w1.cycles - min w1.cycles cfg.proposal_rejection_penalty }) :=
      userById_updateUser_self _ _ _ hid2 (by rw [hself]; rfl)
    refine ⟨trivial, trivial, ?_, Nat.min_le_left _ _, ?_⟩
    · exact hfin
    · intro uid huid
      rw [userById_updateUser_other _ _ _ (fun hh => huid ((hid2.symm.trans hh).symm)),
        userById_updateUser_other _ _ _ (fun hh => huid ((hid1.symm.trans hh).symm)),
        userById_users_eq S s _ hSu]
  · intro hctl
    rw [if_neg (by rw [e2, e5]; omega)]
    exact ⟨rfl, rfl, hSu⟩
  · intro pid P hget hst
    simp only [execute_proposal, hget]
    rw [if_pos hst]

/-- Witness for claim C7: Scenario B resolves to a non-controversial
rejection; user 1 loses the stalwart flag, active weeks, 100 karma and 100
cycles, while user 2 is untouched. -/
theorem claim_C7_witness :
    (Proposal.execute cfg66 collabs0 pNoopRejected sB 0).1 = .ok () ∧
    (Proposal.execute cfg66 collabs0 pNoopRejected sB 0).2.1.status = Status.Rejected ∧
    userById (Proposal.execute cfg66 collabs0 pNoopRejected sB 0).2.2 1 =
      some { mkUser 1 1 "u1" true 1000 with
             stalwart := false,
             active_weeks := 0,
             karma := (1000 : ℤ) - (100 : ℤ),
             cycles := 1000 - min 1000 100 } ∧
    min 1000 100 ≤ 1000 ∧
    userById (Proposal.execute cfg66 collabs0 pNoopRejected sB 0).2.2 2 = userById sB 2 := by
  have h := claim_C7 cfg66 collabs0 pNoopRejected sB 0 0 20000 50000 rfl
    (by decide) (by decide) (by decide) (by decide) (by decide) (by decide) (by decide)
  have h1 := h.1 (mkUser 1 1 "u1" true 1000) (by decide) (by decide)
  exact ⟨h1.1, h1.2.1, h1.2.2.1, h1.2.2.2.1, h1.2.2.2.2 2 (by decide)⟩

/-- Claim C4 (amended): every governance entry point leaves the state
untouched on the error returns that precede any mutation — the four
admission checks of propose, the lookup, status and ballot checks of
vote, and the lookup and status checks of resolve.  The exceptions, where
an error return does come with a state change, are: a propose that fails
at companion-post creation has already applied the Release supersession
(and only it); a vote whose triggered resolve fails keeps the recorded
ballot; Executor failures after a status transition keep the transition. -/
theorem claim_C4 (cfg : Config) (c : Collabs) (s : State) :
    (∀ caller d payload time, principalToUser s caller = none →
      propose cfg c s caller d payload time = (.error "user not found", s)) ∧
    (∀ caller d payload time u, principalToUser s caller = some u →
      u.stalwart = false →
      propose cfg c s caller d payload time =
        (.error "only stalwarts can create proposals", s)) ∧
    (∀ caller payload time u, principalToUser s caller = some u →
      u.stalwart = true →
      propose cfg c s caller "" payload time = (.error "description is empty", s)) ∧
    (∀ caller d payload time u e, principalToUser s caller = some u →
      u.stalwart = true → d ≠ "" →
      payload.validate c cfg (c.mintingRatio s) = .error e →
      propose cfg c s caller d payload time = (.error e, s)) ∧
    (∀ caller d payload time u pl' e, principalToUser s caller = some u →
      u.stalwart = true → d ≠ "" →
      payload.validate c cfg (c.mintingRatio s) = .ok pl' →
      c.postCreate { s with proposals :=
          if pl'.isRelease then cancelOpenReleases s.proposals else s.proposals }
        d caller time (if pl'.isRelease then cancelOpenReleases s.proposals
          else s.proposals).length = .error e →
      propose cfg c s caller d payload time =
        (.error e, { s with proposals :=
          if pl'.isRelease then cancelOpenReleases s.proposals else s.proposals })) ∧
    (∀ time caller pid approved data, s.proposals.get? pid = none →
      vote_on_proposal cfg c s time caller pid approved data =
        (.error "no proposals founds", s)) ∧
    (∀ time caller pid approved data P, s.proposals.get? pid = some P →
      P.status ≠ Status.Open →
      vote_on_proposal cfg c s time caller pid approved data =
        (.error "last proposal is not open", s)) ∧
    (∀ time caller pid approved data P e, s.proposals.get? pid = some P →
      P.status = Status.Open →
      P.vote cfg c s caller approved data = .error e →
      vote_on_proposal cfg c s time caller pid approved data = (.error e, s)) ∧
    (∀ pid time, s.proposals.get? pid = none →
      execute_proposal cfg c s pid time = (.error "no proposals founds", s)) ∧
    (∀ pid time P, s.proposals.get? pid = some P → P.status ≠ Status.Open →
      execute_proposal cfg c s pid time = (.error "last proposal is not open", s)) := by
  refine ⟨?_, ?_, ?_, ?_, ?_, ?_, ?_, ?_, ?_, ?_⟩
  · intro caller d payload time h
    simp only [propose, h]
  · intro caller d payload time u hu hst
    simp only [propose, hu, hst, Bool.not_false, if_true]
  · intro caller payload time u hu hst
    simp [propose, hu, hst]
  · intro caller d payload time u e hu hst hd hv
    simp [propose, hu, hst, hd, hv]
  · intro caller d payload time u pl' e hu hst hd hv hpc
    simp [propose, hu, hst, hd, hv, hpc]
  · intro time caller pid approved data h
    simp only [vote_on_proposal, h]
  · intro time caller pid approved data P hget hst
    simp only [vote_on_proposal, hget]
    rw [if_pos hst]
  · intro time caller pid approved data P e hget hst hv
    simp only [vote_on_proposal, hget, hv]
    rw [if_neg (by simp [hst])]
  · intro pid time h
    simp only [execute_proposal, h]
  · intro pid time P hget hst
    simp only [execute_proposal, hget]
    rw [if_pos hst]

/-- Counterexample to claim C4 as stated: a Release propose that fails at
companion-post creation returns an error, yet the previously Open Release
proposal has been flipped to Cancelled — the state is not the entry
state. -/
theorem claim_C4_counterexample :
    isError (propose cfg66 collabsFail sRelease 1 "desc" plRelease 0).1 = true ∧
    (sRelease.proposals.get? 0).map Proposal.status = some Status.Open ∧
    ((propose cfg66 collabsFail sRelease 1 "desc" plRelease 0).2.proposals.get? 0).map
      Proposal.status = some Status.Cancelled ∧
    (propose cfg66 collabsFail sRelease 1 "desc" plRelease 0).2 ≠ sRelease := by
  decide

/-- Witness for claim C4: voting on a proposal id that does not exist
fails and returns the entry state unchanged. -/
theorem claim_C4_witness :
    vote_on_proposal cfg66 collabs0 sD 0 1 5 true "1" = (.error "no proposals founds", sD) :=
  (claim_C4 cfg66 collabs0 sD).2.2.2.2.2.1 0 1 5 true "1" rfl

/-- Witness for claim C8: a duplicate ballot by user 1 on a proposal that
already carries a bulletin of user 1 is refused as a double vote. -/
theorem claim_C8_witness :
    (rewardProposal "dora" [(20000, 100000)] [(1, true, 20000)]).vote
      cfg66 collabs0 sD 1 true "50" = .error "double vote" :=
  (claim_C8 cfg66 collabs0 (rewardProposal "dora" [(20000, 100000)] [(1, true, 20000)])
    sD 1 true "50").2.2.1 (mkUser 1 1 "u1" true 1000) rfl rfl rfl

/-- An index holding an element is in range. -/
theorem get?_some_lt {α : Type} {l : List α} {i : ℕ} {a : α}
    (h : l.get? i = some a) : i < l.length := by
  by_contra hn
  rw [List.get?_eq_none.2 (Nat.le_of_not_lt hn)] at h
  exact absurd h (by simp)

/-- Replacing one element changes the count of a predicate by at most the
contribution of the replaced position. -/
theorem countP_set_le (P : Proposal → Bool) (l : List Proposal) (i : ℕ)
    (q : Proposal) (h : ∀ p, l.get? i = some p → P q = true → P p = true) :
    (l.set i q).countP P ≤ l.countP P := by
  induction l generalizing i with
  | nil => simp
  | cons a t ih =>
    cases i with
    | zero =>
      rw [List.set_cons_zero, List.countP_cons, List.countP_cons]
      by_cases hq : P q = true
      · rw [if_pos hq, if_pos (h a rfl hq)]
      · rw [if_neg hq]
        exact Nat.add_le_add_left (Nat.zero_le _) _
    | succ n =>
      rw [List.set_cons_succ, List.countP_cons, List.countP_cons]
      exact Nat.add_le_add_right (ih n (fun p hp => h p hp)) _

/-- The supersession map turns every element into a non-Open-Release. -/
theorem isOpenRelease_cancel (p : Proposal) :
    isOpenRelease (if p.status = Status.Open ∧ p.payload.isRelease
                   then { p with status := Status.Cancelled } else p) = false := by
  by_cases h : p.status = Status.Open ∧ p.payload.isRelease = true
  · rw [if_pos h]
    simp [isOpenRelease]
  · rw [if_neg h]
    by_cases hs : p.status = Status.Open
    · have hr : p.payload.isRelease = false := by
        cases hr2 : p.payload.isRelease with
        | false => rfl
        | true => exact absurd ⟨hs, hr2⟩ h
      simp [isOpenRelease, hr]
    · simp [isOpenRelease, hs]

/-- After the supersession map no Open Release proposal remains. -/
theorem countP_cancelOpenReleases (l : List Proposal) :
    (cancelOpenReleases l).countP isOpenRelease = 0 := by
  induction l with
  | nil => rfl
  | cons p t ih =>
    simp only [cancelOpenReleases] at ih
    simp [cancelOpenReleases, List.countP_cons, isOpenRelease_cancel, ih]

/-- The supersession map preserves length. -/
theorem cancelOpenReleases_length (l : List Proposal) :
    (cancelOpenReleases l).length = l.length := by
  simp [cancelOpenReleases]

/-- Elementwise view of the supersession map. -/
theorem cancelOpenReleases_get? (l : List Proposal) (i : ℕ) :
    (cancelOpenReleases l).get? i = (l.get? i).map
      (fun p => if p.status = Status.Open ∧ p.payload.isRelease
                then { p with status := Status.Cancelled } else p) := by
  simp [cancelOpenReleases, List.get?_map]

/-- The supersession map either keeps a status or turns it Cancelled. -/
theorem cancelOpenReleases_status (l : List Proposal) (i : ℕ) (P Q : Proposal)
    (hP : l.get? i = some P) (hQ : (cancelOpenReleases l).get? i = some Q) :
    Q.status = P.status ∨ Q.status = Status.Cancelled := by
  rw [cancelOpenReleases_get?, hP] at hQ
  injection hQ with h
  subst h
  dsimp only
  by_cases hc : P.status = Status.Open ∧ P.payload.isRelease = true
  · rw [if_pos hc]
    exact Or.inr rfl
  · rw [if_neg hc]
    exact Or.inl rfl

/-- The supersession map creates no bad Executed proposal. -/
theorem countP_cancelOpenReleases_badExecuted (c : Collabs) (l : List Proposal)
    (h : l.countP (badExecuted c) = 0) :
    (cancelOpenReleases l).countP (badExecuted c) = 0 := by
  rw [List.countP_eq_zero] at h ⊢
  intro q hq
  simp only [cancelOpenReleases] at hq
  obtain ⟨r, hr, hfr⟩ := List.mem_map.1 hq
  subst hfr
  by_cases hcond : r.status = Status.Open ∧ r.payload.isRelease = true
  · rw [if_pos hcond]
    simp [badExecuted]
  · rw [if_neg hcond]
    exact h r hr

/-- A successful mint implies the receiver text parsed. -/
theorem mint_tokens_ok_parse (cfg : Config) (c : Collabs) (s : State)
    (receiver : String) (tokens : Token) (s' : State)
    (h : mint_tokens cfg c s receiver tokens = .ok s') :
    isError (c.parsePrincipal receiver) = false := by
  rw [mint_tokens] at h
  split at h
  · exact absurd h (by simp)
  · rename_i rcv hr
    rw [hr]
    rfl

/-- An unparsable candidate parses to no principal. -/
theorem parsesTo_of_isError (x : Except String ℕ) (pr : ℕ)
    (h : isError x = true) : parsesTo x pr = false := by
  cases x with
  | error e => rfl
  | ok v => exact absurd h (by simp [isError])

/-- Validation preserves the payload discriminant. -/
theorem validate_isRelease (c : Collabs) (cfg : Config) (pl pl' : Payload)
    (ratio : ℕ) (h : pl.validate c cfg ratio = .ok pl') :
    pl'.isRelease = pl.isRelease := by
  rw [Payload.validate.eq_def] at h
  split at h
  all_goals repeat' first
    | split at h
    | dsimp only at h
  all_goals
    first
      | (injection h with h2; subst h2; rfl)
      | exact absurd h (by simp)

/-- The resolver never changes the payload discriminant. -/
theorem execute_isRelease (cfg : Config) (c : Collabs) (p : Proposal)
    (s : State) (time : ℕ) :
    (Proposal.execute cfg c p s time).2.1.payload.isRelease =
      p.payload.isRelease := by
  simp only [Proposal.execute]
  repeat' split
  all_goals first
    | rfl
    | simp_all [Payload.isRelease]

/-- The resolver never reopens: an Open status in its result comes from an
Open status in its input. -/
theorem execute_open_status (cfg : Config) (c : Collabs) (p : Proposal)
    (s : State) (time : ℕ) :
    (Proposal.execute cfg c p s time).2.1.status = Status.Open →
    p.status = Status.Open := by
  simp only [Proposal.execute]
  repeat' split
  all_goals intro h
  all_goals first
    | exact h
    | simp_all

/-- Resolving an Open proposal never produces an Executed proposal whose
Reward receiver fails to parse. -/
theorem execute_badExecuted (cfg : Config) (c : Collabs) (p : Proposal)
    (s : State) (time : ℕ) (hopen : p.status = Status.Open) :
    badExecuted c (Proposal.execute cfg c p s time).2.1 = false := by
  simp only [Proposal.execute]
  repeat' split
  all_goals simp_all [badExecuted, badReward]
  all_goals
    (rename_i hmint
     exact mint_tokens_ok_parse _ _ _ _ _ _ hmint)

/-- Open-Release membership only depends on the status and the payload
discriminant. -/
theorem isOpenRelease_congr {p q : Proposal} (h1 : p.status = q.status)
    (h2 : p.payload.isRelease = q.payload.isRelease) :
    isOpenRelease p = isOpenRelease q := by
  simp [isOpenRelease, h1, h2]

/-- An Open Release resolver result comes from an Open Release input. -/
theorem isOpenRelease_execute (cfg : Config) (c : Collabs) (Q : Proposal)
    (S2 : State) (time : ℕ)
    (h : isOpenRelease (Proposal.execute cfg c Q S2 time).2.1 = true) :
    isOpenRelease Q = true := by
  rw [isOpenRelease, Bool.and_eq_true, beq_iff_eq] at h ⊢
  obtain ⟨h1, h2⟩ := h
  refine ⟨execute_open_status cfg c Q S2 time h1, ?_⟩
  rw [← execute_isRelease cfg c Q S2 time]
  exact h2

/-- Shape of the proposal list after a resolve call: unchanged, or the
resolved slot replaced by the resolver result for the Open proposal that
was there. -/
theorem execute_proposal_proposals (cfg : Config) (c : Collabs) (s : State)
    (pid time : ℕ) :
    (execute_proposal cfg c s pid time).2.proposals = s.proposals ∨
    ∃ P, s.proposals.get? pid = some P ∧ P.status = Status.Open ∧
      (execute_proposal cfg c s pid time).2.proposals =
        s.proposals.set pid (Proposal.execute cfg c P s time).2.1 := by
  rw [execute_proposal]
  split
  · exact Or.inl rfl
  · rename_i P hget
    split
    · exact Or.inl rfl
    · rename_i hst
      exact Or.inr ⟨P, hget, not_not.mp hst, rfl⟩

/-- Shape of the proposal list after a vote call: unchanged, or the ballot
recorded on the Open proposal, optionally further resolved. -/
theorem vote_proposals (cfg : Config) (c : Collabs) (s : State) (time : ℕ)
    (caller : Principal) (pid : ℕ) (ap : Bool) (data : String) :
    (vote_on_proposal cfg c s time caller pid ap data).2.proposals =
      s.proposals ∨
    ∃ P p', s.proposals.get? pid = some P ∧ P.status = Status.Open ∧
      P.vote cfg c s caller ap data = .ok p' ∧
      ((vote_on_proposal cfg c s time caller pid ap data).2.proposals =
          s.proposals.set pid p' ∨
       ∃ Q S2, (s.proposals.set pid p').get? pid = some Q ∧
         Q.status = Status.Open ∧
         (vote_on_proposal cfg c s time caller pid ap data).2.proposals =
           (s.proposals.set pid p').set pid
             (Proposal.execute cfg c Q S2 time).2.1) := by
  rw [vote_on_proposal]
  split
  · exact Or.inl rfl
  · rename_i P hget
    split
    · exact Or.inl rfl
    · rename_i hst
      split
      · exact Or.inl rfl
      · rename_i p' hvote
        refine Or.inr ⟨P, p', hget, not_not.mp hst, hvote, ?_⟩
        rcases execute_proposal_proposals cfg c
            { (match principalToUser s caller with
               | some user => spendToUserKarma s user.id cfg.voting_reward
               | none => s) with proposals := s.proposals.set pid p' }
            pid time with h | ⟨Q, hQ, hQst, heq⟩
        · exact Or.inl h
        · exact Or.inr ⟨Q, _, hQ, hQst, heq⟩

/-- Shape of the proposal list after a non-trapping cancel call. -/
theorem cancel_proposals (s : State) (caller : Principal) (pid : ℕ)
    (s' : State) (h : cancel_proposal s caller pid = some s') :
    s'.proposals = s.proposals ∨
    ∃ P, s.proposals.get? pid = some P ∧
      s'.proposals = s.proposals.set pid { P with status := Status.Cancelled } := by
  rw [cancel_proposal] at h
  split at h
  · exact absurd h (by simp)
  · rename_i P hget
    split at h
    · exact absurd h (by simp)
    · split at h
      · injection h with h2
        subst h2
        exact Or.inr ⟨P, hget, rfl⟩
      · injection h with h2
        subst h2
        exact Or.inl rfl

/-- Shape of the proposal list after a propose call: unchanged, the
supersession applied, or a base list (plain or superseded) with one Open
proposal appended, the base being the superseded list whenever the new
payload is a Release. -/
theorem propose_proposals (cfg : Config) (c : Collabs)
    (hc : c.preservesProposals) (s : State) (caller : Principal) (d : String)
    (pl : Payload) (time : ℕ) :
    (propose cfg c s caller d pl time).2.proposals = s.proposals ∨
    (propose cfg c s caller d pl time).2.proposals =
      cancelOpenReleases s.proposals ∨
    ∃ base q,
      (base = s.proposals ∨ base = cancelOpenReleases s.proposals) ∧
      q.status = Status.Open ∧
      (q.payload.isRelease = true → base = cancelOpenReleases s.proposals) ∧
      (propose cfg c s caller d pl time).2.proposals = base ++ [q] := by
  rw [propose]
  split
  · exact Or.inl rfl
  · rename_i user hu
    split
    · exact Or.inl rfl
    · split
      · exact Or.inl rfl
      · split
        · exact Or.inl rfl
        · rename_i pl' hv
          split
          · dsimp only
            split
            · exact Or.inr (Or.inl rfl)
            · rename_i post_id s2 hpc
              refine Or.inr (Or.inr ⟨cancelOpenReleases s.proposals,
                { id := (cancelOpenReleases s.proposals).length,
                  proposer := user.id, timestamp := time, post_id := post_id,
                  status := Status.Open, payload := pl', bulletins := [],
                  voting_power := 0 },
                Or.inr rfl, rfl, fun _ => rfl, ?_⟩)
              have h2 := hc _ _ _ _ _ _ _ hpc
              simp only [logInfo, notifyEvent]
              rw [h2]
          · rename_i hrel
            dsimp only
            split
            · exact Or.inl rfl
            · rename_i post_id s2 hpc
              refine Or.inr (Or.inr ⟨s.proposals,
                { id := s.proposals.length,
                  proposer := user.id, timestamp := time, post_id := post_id,
                  status := Status.Open, payload := pl', bulletins := [],
                  voting_power := 0 },
                Or.inl rfl, rfl, fun hq => absurd hq hrel, ?_⟩)
              have h2 := hc _ _ _ _ _ _ _ hpc
              simp only [logInfo, notifyEvent]
              rw [h2]

/-- Inversion of a successful propose: validation succeeded preserving the
payload discriminant, and the final proposal list is the (superseded, when
the payload is a Release) entry list with one fresh Open proposal carrying
the validated payload appended. -/
theorem propose_ok_inv (cfg : Config) (c : Collabs)
    (hc : c.preservesProposals) (s : State) (caller : Principal) (d : String)
    (pl : Payload) (time : ℕ) (pid : ℕ) (s' : State)
    (hok : propose cfg c s caller d pl time = (.ok pid, s')) :
    ∃ pl' q, pl.validate c cfg (c.mintingRatio s) = .ok pl' ∧
      pl'.isRelease = pl.isRelease ∧
      q.status = Status.Open ∧ q.payload = pl' ∧
      s'.proposals = (if pl.isRelease = true
        then cancelOpenReleases s.proposals else s.proposals) ++ [q] := by
  rw [propose] at hok
  split at hok
  · exact absurd hok (by simp)
  · rename_i user hu
    split at hok
    · exact absurd hok (by simp)
    · split at hok
      · exact absurd hok (by simp)
      · split at hok
        · exact absurd hok (by simp)
        · rename_i pl' hv
          have hrel := validate_isRelease c cfg pl pl' (c.mintingRatio s) hv
          split at hok
          · rename_i hrelT
            dsimp only at hok
            split at hok
            · exact absurd hok (by simp)
            · rename_i post_id s2 hpc
              rw [Prod.mk.injEq] at hok
              obtain ⟨h1, h2⟩ := hok
              subst h2
              refine ⟨pl',
                { id := (cancelOpenReleases s.proposals).length,
                  proposer := user.id, timestamp := time, post_id := post_id,
                  status := Status.Open, payload := pl', bulletins := [],
                  voting_power := 0 },
                hv, hrel, rfl, rfl, ?_⟩
              rw [if_pos (hrel ▸ hrelT)]
              have h3 := hc _ _ _ _ _ _ _ hpc
              simp only [logInfo, notifyEvent]
              rw [h3]
          · rename_i hrelF
            dsimp only at hok
            split at hok
            · exact absurd hok (by simp)
            · rename_i post_id s2 hpc
              rw [Prod.mk.injEq] at hok
              obtain ⟨h1, h2⟩ := hok
              subst h2
              refine ⟨pl',
                { id := s.proposals.length,
                  proposer := user.id, timestamp := time, post_id := post_id,
                  status := Status.Open, payload := pl', bulletins := [],
                  voting_power := 0 },
                hv, hrel, rfl, rfl, ?_⟩
              rw [if_neg (fun hq => hrelF (hrel ▸ hq))]
              have h3 := hc _ _ _ _ _ _ _ hpc
              simp only [logInfo, notifyEvent]
              rw [h3]

/-- Every transition keeps the number of Open Release proposals at one or
below. -/
theorem step_openReleaseCount (cfg : Config) (c : Collabs)
    (hc : c.preservesProposals) {s s' : State} (h : Step cfg c s s')
    (hs : openReleaseCount s ≤ 1) : openReleaseCount s' ≤ 1 := by
  rw [openReleaseCount] at hs ⊢
  cases h with
  | propose caller d pl time =>
    rcases propose_proposals cfg c hc s caller d pl time with
      h1 | h1 | ⟨base, q, hbase, hq, hrel, h1⟩
    · rw [h1]; exact hs
    · rw [h1, countP_cancelOpenReleases]
      exact Nat.zero_le 1
    · rw [h1, List.countP_append]
      by_cases hr : q.payload.isRelease = true
      · rw [hrel hr, countP_cancelOpenReleases, Nat.zero_add]
        rw [List.countP_cons, List.countP_nil, Nat.zero_add]
        split
        · exact Nat.le_refl 1
        · exact Nat.zero_le 1
      · have hq0 : List.countP isOpenRelease [q] = 0 := by
          rw [List.countP_cons, List.countP_nil, Nat.zero_add, if_neg ?_]
          intro hiq
          rw [isOpenRelease, Bool.and_eq_true] at hiq
          exact hr hiq.2
        rw [hq0, Nat.add_zero]
        rcases hbase with hb | hb
        · rw [hb]; exact hs
        · rw [hb, countP_cancelOpenReleases]
          exact Nat.zero_le 1
  | vote time caller pid ap data =>
    rcases vote_proposals cfg c s time caller pid ap data with
      h1 | ⟨P, p', hget, hst, hvote, h1 | ⟨Q, S2, hQ, hQst, h1⟩⟩
    · rw [h1]; exact hs
    · rw [h1]
      refine Nat.le_trans (countP_set_le _ _ _ _ ?_) hs
      intro p hp hq'
      rw [hget] at hp
      injection hp with hp
      subst hp
      obtain ⟨u, bal, _, _, _, _, _, hst', _, _, _, _, hisrel, _⟩ :=
        vote_ok_inv cfg c P s caller ap data p' hvote
      rw [← isOpenRelease_congr hst' hisrel]
      exact hq'
    · rw [h1]
      refine Nat.le_trans (countP_set_le _ _ _ _ ?_)
        (Nat.le_trans (countP_set_le _ _ _ _ ?_) hs)
      · intro p hp hq'
        rw [hQ] at hp
        injection hp with hp
        subst hp
        exact isOpenRelease_execute cfg c _ S2 time hq'
      · intro p hp hq'
        rw [hget] at hp
        injection hp with hp
        subst hp
        obtain ⟨u, bal, _, _, _, _, _, hst', _, _, _, _, hisrel, _⟩ :=
          vote_ok_inv cfg c P s caller ap data p' hvote
        rw [← isOpenRelease_congr hst' hisrel]
        exact hq'
  | cancel s2 caller pid hcp =>
    rcases cancel_proposals s caller pid s' hcp with h1 | ⟨P, hget, h1⟩
    · rw [h1]; exact hs
    · rw [h1]
      refine Nat.le_trans (countP_set_le _ _ _ _ ?_) hs
      intro p hp hq'
      exact absurd hq' (by simp [isOpenRelease])
  | resolve pid time =>
    rcases execute_proposal_proposals cfg c s pid time with
      h1 | ⟨P, hget, hst, h1⟩
    · rw [h1]; exact hs
    · rw [h1]
      refine Nat.le_trans (countP_set_le _ _ _ _ ?_) hs
      intro p hp hq'
      rw [hget] at hp
      injection hp with hp
      subst hp
      exact isOpenRelease_execute cfg c _ s time hq'
  | external s2 hps =>
    rw [hps]; exact hs

/-- Every transition preserves the absence of Executed proposals with an
unparsable Reward receiver. -/
theorem step_badExecuted (cfg : Config) (c : Collabs)
    (hc : c.preservesProposals) {s s' : State} (h : Step cfg c s s')
    (hs : s.proposals.countP (badExecuted c) = 0) :
    s'.proposals.countP (badExecuted c) = 0 := by
  cases h with
  | propose caller d pl time =>
    rcases propose_proposals cfg c hc s caller d pl time with
      h1 | h1 | ⟨base, q, hbase, hq, hrel, h1⟩
    · rw [h1]; exact hs
    · rw [h1]
      exact countP_cancelOpenReleases_badExecuted c _ hs
    · rw [h1, List.countP_append]
      have hq0 : List.countP (badExecuted c) [q] = 0 := by
        rw [List.countP_cons, List.countP_nil, Nat.zero_add, if_neg ?_]
        simp [badExecuted, hq]
      have hb0 : base.countP (badExecuted c) = 0 := by
        rcases hbase with hb | hb
        · rw [hb]; exact hs
        · rw [hb]
          exact countP_cancelOpenReleases_badExecuted c _ hs
      rw [hq0, hb0]
  | vote time caller pid ap data =>
    rcases vote_proposals cfg c s time caller pid ap data with
      h1 | ⟨P, p', hget, hst, hvote, h1 | ⟨Q, S2, hQ, hQst, h1⟩⟩
    · rw [h1]; exact hs
    · rw [h1]
      refine Nat.le_zero.mp (Nat.le_trans (countP_set_le _ _ _ _ ?_)
        (Nat.le_of_eq hs))
      intro p hp hb
      rw [hget] at hp
      injection hp with hp
      subst hp
      obtain ⟨u, bal, _, _, _, _, _, hst', _, _, _, _, _, hbr⟩ :=
        vote_ok_inv cfg c P s caller ap data p' hvote
      rw [badExecuted, hst', hbr] at hb
      exact hb
    · rw [h1]
      refine Nat.le_zero.mp (Nat.le_trans (countP_set_le _ _ _ _ ?_)
        (Nat.le_trans (countP_set_le _ _ _ _ ?_) (Nat.le_of_eq hs)))
      · intro p hp hb
        rw [hQ] at hp
        injection hp with hp
        subst hp
        exact absurd hb (by rw [execute_badExecuted cfg c _ S2 time hQst]; simp)
      · intro p hp hb
        rw [hget] at hp
        injection hp with hp
        subst hp
        obtain ⟨u, bal, _, _, _, _, _, hst', _, _, _, _, _, hbr⟩ :=
          vote_ok_inv cfg c P s caller ap data p' hvote
        rw [badExecuted, hst', hbr] at hb
        exact hb
  | cancel s2 caller pid hcp =>
    rcases cancel_proposals s caller pid s' hcp with h1 | ⟨P, hget, h1⟩
    · rw [h1]; exact hs
    · rw [h1]
      refine Nat.le_zero.mp (Nat.le_trans (countP_set_le _ _ _ _ ?_)
        (Nat.le_of_eq hs))
      intro p hp hb
      exact absurd hb (by simp [badExecuted])
  | resolve pid time =>
    rcases execute_proposal_proposals cfg c s pid time with
      h1 | ⟨P, hget, hst, h1⟩
    · rw [h1]; exact hs
    · rw [h1]
      refine Nat.le_zero.mp (Nat.le_trans (countP_set_le _ _ _ _ ?_)
        (Nat.le_of_eq hs))
      intro p hp hb
      rw [hget] at hp
      injection hp with hp
      subst hp
      exact absurd hb (by rw [execute_badExecuted cfg c _ s time hst]; simp)
  | external s2 hps =>
    rw [hps]; exact hs

/-- In every reachable state at most one Release proposal is Open. -/
theorem reachable_openReleaseCount (cfg : Config) (c : Collabs)
    (hc : c.preservesProposals) (s : State) (h : Reachable cfg c s) :
    openReleaseCount s ≤ 1 := by
  induction h with
  | refl => exact Nat.zero_le 1
  | tail h1 h2 ih => exact step_openReleaseCount cfg c hc h2 ih

/-- In every reachable state no Executed proposal has an unparsable Reward
receiver. -/
theorem reachable_badExecuted (cfg : Config) (c : Collabs)
    (hc : c.preservesProposals) (s : State) (h : Reachable cfg c s) :
    s.proposals.countP (badExecuted c) = 0 := by
  induction h with
  | refl => rfl
  | tail h1 h2 ih => exact step_badExecuted cfg c hc h2 ih

/-- Claim C6: under the post-collaborator contract, every reachable state
holds at most one Open Release proposal; a successful propose of a Release
payload applies the supersession (leaving no pre-existing Open Release in
the superseded prefix) before appending the new Open proposal; and no
transition ever turns a non-Open proposal Open again. -/
theorem claim_C6 (cfg : Config) (c : Collabs) (hc : c.preservesProposals) :
    (∀ s, Reachable cfg c s → openReleaseCount s ≤ 1) ∧
    (∀ s caller d pl time pid s', pl.isRelease = true →
      propose cfg c s caller d pl time = (.ok pid, s') →
      (∃ q, q.status = Status.Open ∧ q.payload.isRelease = true ∧
        s'.proposals = cancelOpenReleases s.proposals ++ [q]) ∧
      (cancelOpenReleases s.proposals).countP isOpenRelease = 0) ∧
    (∀ s s', Step cfg c s s' → ∀ i P Q, s.proposals.get? i = some P →
      s'.proposals.get? i = some Q → Q.status = Status.Open →
      P.status = Status.Open) := by
  refine ⟨reachable_openReleaseCount cfg c hc, ?_, ?_⟩
  · intro s caller d pl time pid s' hrel hok
    obtain ⟨pl', q, hv, hrel', hqst, hqpl, hprops⟩ :=
      propose_ok_inv cfg c hc s caller d pl time pid s' hok
    rw [if_pos hrel] at hprops
    refine ⟨⟨q, hqst, ?_, hprops⟩, countP_cancelOpenReleases s.proposals⟩
    rw [hqpl, hrel']
    exact hrel
  · intro s s' hstep i P Q hP hQ hQopen
    cases hstep with
    | propose caller d pl time =>
      rcases propose_proposals cfg c hc s caller d pl time with
        h1 | h1 | ⟨base, q, hbase, hq, hrel, h1⟩
      · rw [h1, hP] at hQ
        injection hQ with hQ
        subst hQ
        exact hQopen
      · rw [h1] at hQ
        rcases cancelOpenReleases_status s.proposals i P Q hP hQ with h2 | h2
        · rw [← h2]
          exact hQopen
        · rw [h2] at hQopen
          exact absurd hQopen (by decide)
      · rw [h1] at hQ
        have hlt : i < base.length := by
          rcases hbase with hb | hb
          · rw [hb]
            exact get?_some_lt hP
          · rw [hb, cancelOpenReleases_length]
            exact get?_some_lt hP
        rw [List.get?_append hlt] at hQ
        rcases hbase with hb | hb
        · rw [hb, hP] at hQ
          injection hQ with hQ
          subst hQ
          exact hQopen
        · rw [hb] at hQ
          rcases cancelOpenReleases_status s.proposals i P Q hP hQ with h2 | h2
          · rw [← h2]
            exact hQopen
          · rw [h2] at hQopen
            exact absurd hQopen (by decide)
    | vote time caller pid ap data =>
      rcases vote_proposals cfg c s time caller pid ap data with
        h1 | ⟨P0, p', hget, hst, hvote, h1 | ⟨Q0, S2, hQ0, hQ0st, h1⟩⟩
      · rw [h1, hP] at hQ
        injection hQ with hQ
        subst hQ
        exact hQopen
      · rw [h1] at hQ
        by_cases hi : i = pid
        · subst hi
          rw [hget] at hP
          injection hP with hP
          subst hP
          exact hst
        · rw [List.get?_set_ne _ _ (fun hh => hi hh.symm), hP] at hQ
          injection hQ with hQ
          subst hQ
          exact hQopen
      · rw [h1] at hQ
        by_cases hi : i = pid
        · subst hi
          rw [hget] at hP
          injection hP with hP
          subst hP
          exact hst
        · rw [List.get?_set_ne _ _ (fun hh => hi hh.symm),
              List.get?_set_ne _ _ (fun hh => hi hh.symm), hP] at hQ
          injection hQ with hQ
          subst hQ
          exact hQopen
    | cancel s2 caller pid hcp =>
      rcases cancel_proposals s caller pid s' hcp with h1 | ⟨P0, hget, h1⟩
      · rw [h1, hP] at hQ
        injection hQ with hQ
        subst hQ
        exact hQopen
      · rw [h1] at hQ
        by_cases hi : i = pid
        · subst hi
          rw [List.get?_set_eq_of_lt _ (get?_some_lt hget)] at hQ
          injection hQ with hQ
          rw [← hQ] at hQopen
          exact absurd hQopen (by simp)
        · rw [List.get?_set_ne _ _ (fun hh => hi hh.symm), hP] at hQ
          injection hQ with hQ
          subst hQ
          exact hQopen
    | resolve pid time =>
      rcases execute_proposal_proposals cfg c s pid time with
        h1 | ⟨P0, hget, hst, h1⟩
      · rw [h1, hP] at hQ
        injection hQ with hQ
        subst hQ
        exact hQopen
      · rw [h1] at hQ
        by_cases hi : i = pid
        · subst hi
          rw [hget] at hP
          injection hP with hP
          subst hP
          exact hst
        · rw [List.get?_set_ne _ _ (fun hh => hi hh.symm), hP] at hQ
          injection hQ with hQ
          subst hQ
          exact hQopen
    | external s2 hps =>
      rw [hps, hP] at hQ
      injection hQ with hQ
      subst hQ
      exact hQopen

/-- Witness for claim C6: a state reached by an external bootstrap step and
a successful Release propose holds at most one Open Release proposal. -/
theorem claim_C6_witness :
    openReleaseCount (propose cfg66 collabs0 sNoProps 1 "desc" plRelease 0).2 ≤ 1 :=
  (claim_C6 cfg66 collabs0 (fun s d pr t i pid s' h => by cases h; rfl)).1 _
    (Relation.ReflTransGen.tail
      (Relation.ReflTransGen.single (Step.external initState sNoProps rfl))
      (Step.propose sNoProps 1 "desc" plRelease 0))

/-- Claim C10 (amended): Reward validation always succeeds without parsing
the receiver (it returns the payload unchanged for every parser); a
bad-receiver Reward proposal still accepts ballots (a reject vote by any
trusted holder succeeds, the receiver-identity check never fires); a
resolve meeting the approval condition (with the rejection condition not
met — that one is checked first) returns the principal-parse error and
leaves the status unchanged; and in every reachable state no Executed
proposal carries an unparsable Reward receiver. -/
theorem claim_C10 (cfg : Config) (c : Collabs) (hc : c.preservesProposals) :
    (∀ (r : Reward) (ratio : ℕ),
      Payload.validate c cfg (.Reward r) ratio = .ok (.Reward r)) ∧
    (∀ (p : Proposal) (s : State) (pr : Principal) (data : String)
      (r : Reward) (u : User) (bal : Token),
      p.payload = .Reward r →
      isError (c.parsePrincipal r.receiver) = true →
      principalToUser s pr = some u → u.trusted = true →
      p.bulletins.any (fun b => b.1 == u.id) = false →
      balanceOf s pr = some bal →
      p.vote cfg c s pr false data =
        .ok { p with
          payload := .Reward { r with votes := r.votes ++ [(bal, 0)] },
          bulletins := p.bulletins ++ [(u.id, false, bal)] }) ∧
    (∀ (p : Proposal) (s : State) (time : ℕ) (r : Reward) (e : String),
      p.payload = .Reward r → c.parsePrincipal r.receiver = .error e →
      ¬ (mul64 (tally p.bulletins).2 100 ≥
          mul64 (resolveVP c s p time) (100 - cfg.proposal_approval_threshold)) →
      mul64 (tally p.bulletins).1 100 ≥
        mul64 (resolveVP c s p time) cfg.proposal_approval_threshold →
      (Proposal.execute cfg c p s time).1 = .error e ∧
      (Proposal.execute cfg c p s time).2.1.status = p.status) ∧
    (∀ s, Reachable cfg c s → ∀ p, p ∈ s.proposals →
      badReward c p = true → p.status ≠ Status.Executed) := by
  refine ⟨fun r ratio => rfl, ?_, ?_, ?_⟩
  · intro p s pr data r u bal hpay herr hu htr hdv hbal
    rw [Proposal.vote, hu, hpay]
    simp [htr, hdv, hbal, parsesTo_of_isError _ _ herr]
  · intro p s time r e hpay hparse hrej happ
    simp only [resolveVP] at hrej happ
    simp only [Proposal.execute]
    rw [if_neg hrej, if_pos happ]
    simp only [hpay]
    simp only [mint_tokens, hparse]
    exact ⟨trivial, trivial⟩
  · intro s hreach p hp hbad hex
    have h0 := reachable_badExecuted cfg c hc s hreach
    rw [List.countP_eq_zero] at h0
    exact h0 p hp (by simp [badExecuted, hex, hbad])

/-- Witness for claim C10: resolving the approval-ready Reward proposal
with the unparsable receiver returns the parse error and keeps the
proposal Open. -/
theorem claim_C10_witness :
    (Proposal.execute cfg66 collabs0 pRewardBad sRewardBad 0).1 =
      .error "invalid principal text" ∧
    (Proposal.execute cfg66 collabs0 pRewardBad sRewardBad 0).2.1.status =
      pRewardBad.status :=
  (claim_C10 cfg66 collabs0 (fun s d pr t i pid s' h => by cases h; rfl)).2.2.1
    pRewardBad sRewardBad 0
    { receiver := "unknown",
      votes := [(20000, 100000), (40000, 20000), (80000, 50000)], minted := 0 }
    "invalid principal text" rfl rfl (by decide) (by decide)

/-- Counterexample to claim C10 as stated: on a bad-receiver Reward
proposal whose tally meets the approval condition and the rejection
condition at once, the resolve does not return the parse error — the
rejection branch wins, the resolve succeeds and the status becomes
Rejected, not Open. -/
theorem claim_C10_counterexample :
    badReward collabsHundred pRewardBoth = true ∧
    mul64 (tally pRewardBoth.bulletins).1 100 ≥
      mul64 (resolveVP collabsHundred sRewardBoth pRewardBoth 0)
        cfg66.proposal_approval_threshold ∧
    (Proposal.execute cfg66 collabsHundred pRewardBoth sRewardBoth 0).1 =
      .ok () ∧
    (Proposal.execute cfg66 collabsHundred pRewardBoth sRewardBoth 0).2.1.status =
      Status.Rejected := by
  decide

end Taggr
